import Mathlib

/-!
Verification development for the kart-racing client controller
(`packages/3d-web-client-core/src/character/KartController.ts`).

The controller's per-frame state and each private method of `KartController`
are embedded as Lean definitions over the real numbers.  External
collaborators are modelled as oracles:

* the `CollisionsManager.raycastFirst` service is a function
  `Vec3 → Vec3 → Option (ℝ × Vec3 × Vec3)` returning `(distance, normal,
  point)` for the nearest hit of the ray `(origin, direction)`, or `none`
  (the explicit max-distance argument of `raycastFirst` is subsumed by the
  `distance < length / 2 + 0.05` filter the controller itself applies);
* the key-input manager's output is an `Option KartControlInput`;
* each call to `Math.random()` is one real parameter of the frame update.

The character object carries only a position and a pure-yaw rotation in this
controller (rotateY is the only rotation ever applied), so the character
transform is embedded as a `position : Vec3` plus a `yaw : ℝ`, with
`getWorldDirection` returning `(sin yaw, 0, cos yaw)` (the object's world
+Z axis) and `rotateY a` adding `a` to the yaw.
-/

noncomputable section

open scoped Classical

/-- Three-component real vector mirroring the three.js `Vector3` values the
controller manipulates. -/
structure Vec3 where
  x : ℝ
  y : ℝ
  z : ℝ

namespace Vec3

/-- Componentwise addition, as `Vector3.add`. -/
def add (a b : Vec3) : Vec3 := ⟨a.x + b.x, a.y + b.y, a.z + b.z⟩

/-- Componentwise subtraction, as `Vector3.sub`. -/
def sub (a b : Vec3) : Vec3 := ⟨a.x - b.x, a.y - b.y, a.z - b.z⟩

/-- Scalar multiple, as `Vector3.multiplyScalar`. -/
def smul (c : ℝ) (v : Vec3) : Vec3 := ⟨c * v.x, c * v.y, c * v.z⟩

/-- Negation, as `Vector3.negate`. -/
def neg (v : Vec3) : Vec3 := ⟨-v.x, -v.y, -v.z⟩

/-- Dot product, as `Vector3.dot`. -/
def dot (a b : Vec3) : ℝ := a.x * b.x + a.y * b.y + a.z * b.z

/-- Cross product, as `Vector3.crossVectors`. -/
def cross (a b : Vec3) : Vec3 :=
  ⟨a.y * b.z - a.z * b.y, a.z * b.x - a.x * b.z, a.x * b.y - a.y * b.x⟩

/-- Squared length, as `Vector3.lengthSq`. -/
def lengthSq (v : Vec3) : ℝ := v.x ^ 2 + v.y ^ 2 + v.z ^ 2

/-- Euclidean length, as `Vector3.length`. -/
def length (v : Vec3) : ℝ := Real.sqrt v.lengthSq

/-- The zero vector. -/
def zero : Vec3 := ⟨0, 0, 0⟩

/-- Normalisation, as `Vector3.normalize`, which divides by `length() || 1`:
a zero-length vector is left unchanged rather than producing NaNs. -/
def normalize (v : Vec3) : Vec3 := if v.length = 0 then v else smul (1 / v.length) v

/-- Projection of `v` onto `target`, as `Vector3.projectOnVector`: it returns
the zero vector when `target` has zero squared length. -/
def projectOnVector (v target : Vec3) : Vec3 :=
  if target.lengthSq = 0 then zero else smul (target.dot v / target.lengthSq) target

/-- Linear interpolation toward `t`, as `Vector3.lerp`. -/
def lerp (v t : Vec3) (alpha : ℝ) : Vec3 :=
  ⟨v.x + (t.x - v.x) * alpha, v.y + (t.y - v.y) * alpha, v.z + (t.z - v.z) * alpha⟩

end Vec3

/-- The tuning-constant record `KartPhysicsConfig` of `KartController`. -/
structure KartPhysicsConfig where
  maxSpeed : ℝ
  acceleration : ℝ
  deceleration : ℝ
  steeringSpeed : ℝ
  driftFactor : ℝ
  groundFriction : ℝ
  airResistance : ℝ
  bounceRestitution : ℝ

/-- The hard-coded `kartConfig` instance of `KartController`. -/
def kartConfig : KartPhysicsConfig :=
  { maxSpeed := 120
    acceleration := 70
    deceleration := 70
    steeringSpeed := 1.8
    driftFactor := 0.4
    groundFriction := 0.95
    airResistance := 0.008
    bounceRestitution := 0.6 }

/-- A raw control sample, as the `KartControlInput` interface.  The `drift`
flag is carried by the input format but never read by the controller. -/
structure KartControlInput where
  throttle : ℝ
  steering : ℝ
  drift : Bool

/-- The respawn AABB of the spawn configuration. -/
structure RespawnTrigger where
  minX : ℝ
  maxX : ℝ
  minY : ℝ
  maxY : ℝ
  minZ : ℝ
  maxZ : ℝ

/-- The spawn configuration consumed by the controller. -/
structure SpawnConfigurationState where
  spawnPosition : Vec3
  spawnPositionVariance : Vec3
  respawnTrigger : RespawnTrigger

/-- One perimeter-ray hit recorded by `performCollisionChecks`. -/
structure CollisionSample where
  normal : Vec3
  distance : ℝ
  point : Vec3

/-- The per-frame mutable state of `KartController` together with the
character transform it drives (position plus pure-yaw orientation). -/
structure KartState where
  position : Vec3
  yaw : ℝ
  velocity : Vec3
  angularVelocity : ℝ
  throttleInput : ℝ
  steeringInput : ℝ
  isDrifting : Prop
  isReversing : Prop
  isGrounded : Prop
  isSkidding : Prop

/-- The world +Z axis of the character for yaw `yaw`, i.e. what
`character.getWorldDirection` returns for a pure-yaw rotation. -/
def forwardDir (yaw : ℝ) : Vec3 := ⟨Real.sin yaw, 0, Real.cos yaw⟩

/-- Math.sign, as used by `smoothInput`. -/
def mathSign (x : ℝ) : ℝ := if x < 0 then -1 else if 0 < x then 1 else 0

/-- The private `smoothInput` method: move `current` toward `target` by at
most `rate`, snapping when within one step. -/
def smoothInput (current target rate : ℝ) : ℝ :=
  let difference := target - current
  let maxChange := rate * mathSign difference
  if |difference| ≤ |maxChange| then target else current + maxChange

/-- The private `processInput` method: smooth the raw throttle and steering
(with steering inverted while reversing) and derive the drift flag. -/
def processInput (s : KartState) (input : KartControlInput) (dt : ℝ) : KartState :=
  let thr := smoothInput s.throttleInput input.throttle (8 * dt)
  let effectiveSteering : ℝ := if s.isReversing then -input.steering else input.steering
  let steer := smoothInput s.steeringInput effectiveSteering (12 * dt)
  let speed := s.velocity.length
  { s with
    throttleInput := thr
    steeringInput := steer
    isDrifting := 0.3 < |steer| ∧ 15 < speed ∧ 0.1 < |thr| }

/-- The private `applyInputDecay` method used when no raw input is present. -/
def applyInputDecay (s : KartState) (dt : ℝ) : KartState :=
  { s with
    throttleInput := smoothInput s.throttleInput 0 (3 * dt)
    steeringInput := smoothInput s.steeringInput 0 (3 * dt)
    isDrifting := False }

/-- The input phase of `update()`: process the control sample when present,
otherwise decay the smoothed inputs. -/
def inputPhase (s : KartState) (input : Option KartControlInput) (dt : ℝ) : KartState :=
  match input with
  | some i => processInput s i dt
  | none => applyInputDecay s dt

/-- The private `updateLinearVelocity` method: forward acceleration with a
hard clamp to `maxSpeed`, reverse acceleration with the same clamp, or
speed-dependent braking, maintaining the `isReversing` flag. -/
def updateLinearVelocity (cfg : KartPhysicsConfig) (s : KartState) (dt : ℝ) : KartState :=
  if 0.01 < |s.throttleInput| then
    if 0 < s.throttleInput then
      let accelerationForce := s.throttleInput * cfg.acceleration
      let fwd := forwardDir s.yaw
      let v1 := s.velocity.add (fwd.smul (accelerationForce * dt))
      let v2 := if cfg.maxSpeed < v1.length then v1.normalize.smul cfg.maxSpeed else v1
      { s with velocity := v2, isReversing := False }
    else
      let currentSpeed := s.velocity.length
      let rev1 : Prop := s.isReversing ∨ (currentSpeed < 2 ∧ s.throttleInput < -0.1)
      if rev1 ∧ s.throttleInput < -0.1 then
        let reverseAcceleration := |s.throttleInput| * cfg.acceleration
        let backward := (forwardDir s.yaw).neg
        let v1 := s.velocity.add (backward.smul (reverseAcceleration * dt))
        let v2 := if cfg.maxSpeed < v1.length then v1.normalize.smul cfg.maxSpeed else v1
        { s with velocity := v2, isReversing := rev1 }
      else
        let brakingIntensity := |s.throttleInput|
        if 0.1 < currentSpeed then
          let speedFactor : ℝ :=
            if currentSpeed < 15 then 1.3
            else if currentSpeed < 40 then 1.1
            else max 0.3 (1 - currentSpeed / 100)
          let adjustedBrakingIntensity := brakingIntensity * speedFactor
          let speedReduction := 1 - adjustedBrakingIntensity * 0.9 * dt
          let directionFriction := 1 - adjustedBrakingIntensity * 0.675 * dt
          let v1 := s.velocity.smul (speedReduction * directionFriction)
          let v2 :=
            if v1.length < 0.5 then
              let v3 := v1.smul 0.9
              if v3.length < 0.1 then Vec3.zero else v3
            else v1
          { s with velocity := v2, isReversing := False }
        else { s with isReversing := False }
  else { s with isReversing := False }

/-- The private `updateAngularVelocity` method: speed-gated steering force
with an effectiveness-scaled clamp, local-space yaw integration, then
angular damping when not steering or nearly stationary. -/
def updateAngularVelocity (cfg : KartPhysicsConfig) (s : KartState) (dt : ℝ) : KartState :=
  let ang1 : ℝ :=
    if 0.01 < |s.steeringInput| then
      let forwardSpeed := s.velocity.length
      if 0.5 < forwardSpeed then
        let steeringEffectiveness : ℝ :=
          if forwardSpeed < 3 then 0.2
          else if forwardSpeed < 8 then 0.5
          else
            let speedRatio := min (forwardSpeed / 30) 1
            1.0 - speedRatio * (1.0 - 0.5)
        let steeringForce := s.steeringInput * steeringEffectiveness * cfg.steeringSpeed * 2
        let a1 := s.angularVelocity + steeringForce * dt
        let maxAngularVelocity := 4 * steeringEffectiveness
        max (-maxAngularVelocity) (min maxAngularVelocity a1)
      else s.angularVelocity
    else s.angularVelocity
  let yaw1 := s.yaw + ang1 * dt
  let ang2 : ℝ :=
    if |s.steeringInput| < 0.01 ∨ s.velocity.length < 0.5 then ang1 * 0.92 else ang1
  { s with angularVelocity := ang2, yaw := yaw1 }

/-- The private `applyResistance` method: proportional air resistance
(reduced while braking) plus ground friction when grounded (coasting
friction, forward grip, or none while braking or drifting). -/
def applyResistance (cfg : KartPhysicsConfig) (s : KartState) (dt : ℝ) : KartState :=
  let speed := s.velocity.length
  let isBraking : Prop := s.throttleInput < -0.1
  let airResistanceMultiplier : ℝ := if isBraking then 0.3 else 1.0
  let airResistance := speed * cfg.airResistance * airResistanceMultiplier
  let v1 := s.velocity.add (s.velocity.normalize.smul (-airResistance * dt))
  let v2 :=
    if s.isGrounded then
      if |s.throttleInput| < 0.01 then v1.smul 0.995
      else if 0 < s.throttleInput ∧ ¬s.isDrifting then v1.smul cfg.groundFriction
      else v1
    else v1
  { s with velocity := v2 }

/-- The private `processDrift` method: while drifting, recombine the
velocity from a speed-scaled momentum part and a forward steering part with
drift friction; otherwise gradually realign the velocity with the facing
direction, except while braking. -/
def processDrift (s : KartState) (dt : ℝ) : KartState :=
  if s.isDrifting then
    let fwd := forwardDir s.yaw
    let speed := s.velocity.length
    if 0.1 < speed then
      let velocityDirection := s.velocity.normalize
      let speedFactor := min (speed / 40) 1
      let steeringInfluence := 0.15 * (1 - speedFactor * 0.5)
      let momentumPreservation := 1 - steeringInfluence
      let preservedVelocity := velocityDirection.smul (speed * momentumPreservation)
      let steeringVelocity := fwd.smul (speed * steeringInfluence)
      { s with velocity := (preservedVelocity.add steeringVelocity).smul 0.985 }
    else s
  else
    let fwd := forwardDir s.yaw
    let speed := s.velocity.length
    if 0.1 < speed then
      if s.throttleInput < -0.1 then s
      else
        let speedFactor := min (speed / 40) 1
        let alignmentRate := 1.5 * dt * (1 - speedFactor * 0.8)
        let targetVelocity := fwd.smul speed
        { s with velocity := s.velocity.lerp targetVelocity alignmentRate }
    else s

/-- The private `performCollisionChecks` method: eight perimeter probe
points, four kart-relative ray directions each, recording every oracle hit
closer than `kartBounds.length / 2 + 0.05`. -/
def performCollisionChecks (raycast : Vec3 → Vec3 → Option (ℝ × Vec3 × Vec3))
    (kartPosition : Vec3) (yaw : ℝ) : List CollisionSample :=
  let fwd := forwardDir yaw
  let right := (fwd.cross ⟨0, 1, 0⟩).normalize
  let front := kartPosition.add (fwd.smul (1.8 / 2))
  let rear := kartPosition.add (fwd.smul (-(1.8 / 2)))
  let checkPoints : List Vec3 :=
    [front,
     front.add (right.smul (-(1.4 / 2))),
     front.add (right.smul (1.4 / 2)),
     kartPosition.add (right.smul (-(1.4 / 2))),
     kartPosition.add (right.smul (1.4 / 2)),
     rear,
     rear.add (right.smul (-(1.4 / 2))),
     rear.add (right.smul (1.4 / 2))]
  let rayDirections : List Vec3 := [fwd, fwd.neg, right, right.neg]
  checkPoints.flatMap fun checkPoint =>
    rayDirections.filterMap fun direction =>
      match raycast checkPoint direction with
      | some (distance, normal, point) =>
          if distance < 1.8 / 2 + 0.05 then some ⟨normal, distance, point⟩ else none
      | none => none

/-- Sum of the normals of a list of collision samples (the accumulation
loop of `applyCollisionResponse`). -/
def sumNormals (collisions : List CollisionSample) : Vec3 :=
  collisions.foldl (fun acc c => acc.add c.normal) Vec3.zero

/-- The private `handleVelocityCollisionResponse` method: bounce the normal
component, apply wall friction to the tangential component, clamp the total
to `maxSpeed * 0.8`, and add a spin impulse on a predominantly side hit. -/
def handleVelocityCollisionResponse (cfg : KartPhysicsConfig) (s : KartState)
    (normal : Vec3) : KartState :=
  let speed := s.velocity.length
  if speed < 0.1 then s
  else
    let velocityNormal := s.velocity.projectOnVector normal
    let velocityTangent := s.velocity.sub velocityNormal
    let bounceVelocity := velocityNormal.smul (-cfg.bounceRestitution)
    let frictionVelocity := velocityTangent.smul 0.7
    let v1 := bounceVelocity.add frictionVelocity
    let maxBounceSpeed := cfg.maxSpeed * 0.8
    let v2 := if maxBounceSpeed < v1.length then v1.normalize.smul maxBounceSpeed else v1
    let impactForce := min (speed / cfg.maxSpeed) 1
    let rotationalImpulse := impactForce * 0.5
    let fwd := forwardDir s.yaw
    let collisionAngle := normal.dot fwd
    let ang1 :=
      if |collisionAngle| < 0.7 then
        s.angularVelocity + ((normal.cross ⟨0, 1, 0⟩).dot fwd) * rotationalImpulse
      else s.angularVelocity
    { s with velocity := v2, angularVelocity := ang1 }

/-- The private `applyCollisionResponse` method: average the sample normals,
push the kart out along the averaged normal by the penetration depth, then
resolve the velocity and spin. -/
def applyCollisionResponse (cfg : KartPhysicsConfig) (s : KartState)
    (collisions : List CollisionSample) : KartState :=
  match collisions with
  | [] => s
  | c :: rest =>
      let n : ℝ := ((c :: rest : List CollisionSample).length : ℝ)
      let avgNormal := ((sumNormals (c :: rest)).smul (1 / n)).normalize
      let minDistance := rest.foldl (fun m col => min m col.distance) c.distance
      let penetration := max 0 (1.8 / 2 - minDistance + 0.05)
      let pos1 :=
        if 0.001 < penetration then s.position.add (avgNormal.smul penetration)
        else s.position
      handleVelocityCollisionResponse cfg { s with position := pos1 } avgNormal

/-- The private `updateCharacterTransform` method: integrate the position
and run the collision pipeline (`handleCollisions`). -/
def updateCharacterTransform (cfg : KartPhysicsConfig)
    (raycast : Vec3 → Vec3 → Option (ℝ × Vec3 × Vec3)) (s : KartState) (dt : ℝ) : KartState :=
  let s1 := { s with position := s.position.add (s.velocity.smul dt) }
  applyCollisionResponse cfg s1 (performCollisionChecks raycast s1.position s1.yaw)

/-- The private `updateSkiddingState` method: lateral-slip, hard-braking,
fast-drift and hard-turn detection, gated by grounding and a speed floor. -/
def updateSkiddingState (s : KartState) : KartState :=
  let speed := s.velocity.length
  if ¬s.isGrounded ∨ speed < 3 then { s with isSkidding := False }
  else
    let fwd := forwardDir s.yaw
    let velocityDirection := s.velocity.normalize
    let forwardAlignment := fwd.dot velocityDirection
    let lateralSlipAmount := 1 - |forwardAlignment|
    let hardBraking : Prop := s.throttleInput < -0.3 ∧ 5 < speed
    let isLateralSlipping : Prop := 0.3 < lateralSlipAmount
    let isDriftingFast : Prop := s.isDrifting ∧ 8 < speed
    let hardTurningAtSpeed : Prop := 0.5 < |s.steeringInput| ∧ 12 < speed
    { s with isSkidding := isLateralSlipping ∨ hardBraking ∨ isDriftingFast ∨ hardTurningAtSpeed }

/-- The private `updateKartPhysics` method (the call to the purely visual
`character.updateKartMovement` has no controller-state effect and is
omitted). -/
def updateKartPhysics (cfg : KartPhysicsConfig)
    (raycast : Vec3 → Vec3 → Option (ℝ × Vec3 × Vec3)) (s : KartState) (dt : ℝ) : KartState :=
  updateSkiddingState
    (updateCharacterTransform cfg raycast
      (processDrift
        (applyResistance cfg
          (updateAngularVelocity cfg
            (updateLinearVelocity cfg s dt) dt) dt) dt) dt)

/-- The private `maintainGroundContact` method: on a ground hit, servo the
height toward wheel contact and set the grounded flag from the hit
distance; with no hit, mark airborne and apply gravity to the vertical
velocity. -/
def maintainGroundContact (raycast : Vec3 → Vec3 → Option (ℝ × Vec3 × Vec3))
    (s : KartState) (dt : ℝ) : KartState :=
  match raycast s.position ⟨0, -1, 0⟩ with
  | some (distance, _, _) =>
      let targetHeight := s.position.y - distance + 0.5 / 2
      let heightDifference := targetHeight - s.position.y
      { s with
        position := ⟨s.position.x, s.position.y + heightDifference * 10 * dt, s.position.z⟩
        isGrounded := distance < 0.5 + 0.1 }
  | none =>
      { s with
        isGrounded := False
        velocity := ⟨s.velocity.x, s.velocity.y - 9.8 * dt, s.velocity.z⟩ }

/-- The jitter helper of `resetPosition`: `value + (r - 0.5) * 2 * variance`
where `r` stands for the `Math.random()` sample. -/
def randomWithVariance (value variance r : ℝ) : ℝ := value + (r - 0.5) * 2 * variance

/-- The public `resetPosition` method: teleport to the jittered spawn point
and zero the velocity, angular velocity, smoothed inputs and drift flag. -/
def resetPosition (spawn : SpawnConfigurationState) (s : KartState) (r1 r2 r3 : ℝ) : KartState :=
  { s with
    position :=
      ⟨randomWithVariance spawn.spawnPosition.x spawn.spawnPositionVariance.x r1,
       randomWithVariance spawn.spawnPosition.y spawn.spawnPositionVariance.y r2,
       randomWithVariance spawn.spawnPosition.z spawn.spawnPositionVariance.z r3⟩
    velocity := Vec3.zero
    angularVelocity := 0
    throttleInput := 0
    steeringInput := 0
    isDrifting := False }

/-- The out-of-bounds test of `checkRespawnBounds`. -/
def outsideRespawnBounds (t : RespawnTrigger) (p : Vec3) : Prop :=
  p.x < t.minX ∨ t.maxX < p.x ∨ p.y < t.minY ∨ t.maxY < p.y ∨ p.z < t.minZ ∨ t.maxZ < p.z

/-- The private `checkRespawnBounds` method. -/
def checkRespawnBounds (spawn : SpawnConfigurationState) (s : KartState)
    (r1 r2 r3 : ℝ) : KartState :=
  if outsideRespawnBounds spawn.respawnTrigger s.position then resetPosition spawn s r1 r2 r3 else s

/-- A quaternion value, for the three.js `Quaternion` computed by
`updateNetworkState`. -/
structure Quat4 where
  x : ℝ
  y : ℝ
  z : ℝ
  w : ℝ

/-- The three.js `Quaternion.setFromEuler` formula for the default XYZ
order, applied to Euler angles `(ex, ey, ez)`. -/
def setFromEulerXYZ (ex ey ez : ℝ) : Quat4 :=
  let c1 := Real.cos (ex / 2)
  let c2 := Real.cos (ey / 2)
  let c3 := Real.cos (ez / 2)
  let s1 := Real.sin (ex / 2)
  let s2 := Real.sin (ey / 2)
  let s3 := Real.sin (ez / 2)
  ⟨s1 * c2 * c3 + c1 * s2 * s3,
   c1 * s2 * c3 - s1 * c2 * s3,
   c1 * c2 * s3 + s1 * s2 * c3,
   c1 * c2 * c3 - s1 * s2 * s3⟩

/-- The replicated rotation of `CharacterState`: only the Y and W quaternion
components are carried. -/
structure KartRotation where
  quaternionY : ℝ
  quaternionW : ℝ

/-- The replicated `CharacterState` produced once per frame. -/
structure CharacterState where
  id : ℤ
  position : Vec3
  rotation : KartRotation
  state : ℤ

/-- The private `updateNetworkState` method: copy the final position, read
the character's (pure-yaw) Euler rotation through the quaternion
conversion, and emit the constant `state := 0`. -/
def updateNetworkState (idv : ℤ) (s : KartState) : CharacterState :=
  let quaternion := setFromEulerXYZ 0 s.yaw 0
  { id := idv
    position := s.position
    rotation := { quaternionY := quaternion.y, quaternionW := quaternion.w }
    state := 0 }

/-- Everything of the public `update()` method up to but excluding the
respawn check: input phase, physics, and ground contact. -/
def preRespawn (cfg : KartPhysicsConfig)
    (raycast : Vec3 → Vec3 → Option (ℝ × Vec3 × Vec3)) (s : KartState)
    (input : Option KartControlInput) (dt : ℝ) : KartState :=
  maintainGroundContact raycast (updateKartPhysics cfg raycast (inputPhase s input dt) dt) dt

/-- The public `update()` method for one frame: input phase, physics
integration, ground contact, then the respawn bounds check (the trailing
`updateNetworkState` call builds the separate replicated record and does not
mutate the kart state). -/
def update (cfg : KartPhysicsConfig) (spawn : SpawnConfigurationState)
    (raycast : Vec3 → Vec3 → Option (ℝ × Vec3 × Vec3)) (s : KartState)
    (input : Option KartControlInput) (dt : ℝ) (r1 r2 r3 : ℝ) : KartState :=
  checkRespawnBounds spawn (preRespawn cfg raycast s input dt) r1 r2 r3

/-- Raycast oracle for an empty world: no geometry anywhere. -/
def noHitRaycast : Vec3 → Vec3 → Option (ℝ × Vec3 × Vec3) := fun _ _ => none

/-- Raycast oracle for an infinite flat ground plane at height 0 with no
walls: any downward ray from height `y` hits at distance `y`; rays that are
not pointing downward hit nothing. -/
def planeRaycast : Vec3 → Vec3 → Option (ℝ × Vec3 × Vec3) := fun origin direction =>
  if direction.y < 0 then some (origin.y, ⟨0, 1, 0⟩, ⟨origin.x, 0, origin.z⟩) else none

/-- A generous spawn configuration whose respawn AABB is the cube of
half-side 1000 about the origin. -/
def wideSpawn : SpawnConfigurationState :=
  { spawnPosition := ⟨0, 1 / 4, 0⟩
    spawnPositionVariance := ⟨1, 1, 1⟩
    respawnTrigger :=
      { minX := -1000, maxX := 1000, minY := -1000, maxY := 1000, minZ := -1000, maxZ := 1000 } }

/-- The per-frame speed factor of a grounded, input-free, forward-aligned
coasting frame at `dt = 1/60`: air resistance times coasting friction,
`(1 - 0.008 / 60) * 0.995`. -/
def coastDecayFactor : ℝ := 7499 / 7500 * (199 / 200)

/-- A coasting kart state: at rest height `1/4` over the ground plane,
facing +Z with velocity `z` along +Z at longitudinal position `zp`, smoothed
inputs zero, grounded, with every mode flag clear. -/
def coastState (zp z : ℝ) : KartState :=
  { position := ⟨0, 1 / 4, zp⟩
    yaw := 0
    velocity := ⟨0, 0, z⟩
    angularVelocity := 0
    throttleInput := 0
    steeringInput := 0
    isDrifting := False
    isReversing := False
    isGrounded := True
    isSkidding := False }

/-- The trajectory of frame updates with no raw input starting from
`coastState 0 1`, over the flat ground plane, at sixty frames per second. -/
def coastIter : ℕ → KartState
  | 0 => coastState 0 1
  | n + 1 => update kartConfig wideSpawn planeRaycast (coastIter n) none (1 / 60) (1 / 2) (1 / 2) (1 / 2)

/-- The conserved bound of the coasting trajectory:
`coastDecayFactor / 60 / (1 - coastDecayFactor)`. -/
def coastBeta : ℝ := 1492301 / 461940

/-- A spawn configuration whose respawn AABB is a far-away unit cube, so
that ordinary positions near the origin are out of bounds. -/
def farSpawn : SpawnConfigurationState :=
  { spawnPosition := ⟨0, 1 / 4, 0⟩
    spawnPositionVariance := ⟨1, 1, 1⟩
    respawnTrigger :=
      { minX := 5, maxX := 6, minY := 5, maxY := 6, minZ := 5, maxZ := 6 } }

/-- Modelled on the wording of the specification for comparison with the
code: the bounce response splits the velocity into the component parallel
to the averaged unit normal and the tangential remainder, scales the normal
component by minus the restitution and the tangential one by the
wall-friction factor 0.7, and recombines. -/
def specBounceVelocity (cfg : KartPhysicsConfig) (v n : Vec3) : Vec3 :=
  let velocityNormal := n.smul (n.dot v)
  let velocityTangent := v.sub velocityNormal
  (velocityNormal.smul (-cfg.bounceRestitution)).add (velocityTangent.smul 0.7)

/-- Modelled on the wording of the specification: a hard clamp of the total
speed to a cap. -/
def specClamp (cap : ℝ) (v : Vec3) : Vec3 :=
  if cap < v.length then v.normalize.smul cap else v

/-- The averaged unit normal of a list of collision samples, as computed by
`applyCollisionResponse`. -/
def avgUnitNormal (cols : List CollisionSample) : Vec3 :=
  ((sumNormals cols).smul (1 / (cols.length : ℝ))).normalize

namespace Vec3

/-- The squared length is nonnegative. -/
theorem lengthSq_nonneg (v : Vec3) : 0 ≤ v.lengthSq := by
  simp only [lengthSq]; positivity

/-- The length is nonnegative. -/
theorem length_nonneg (v : Vec3) : 0 ≤ v.length := Real.sqrt_nonneg _

/-- The square of the length is the squared length. -/
theorem sq_length (v : Vec3) : v.length ^ 2 = v.lengthSq :=
  Real.sq_sqrt v.lengthSq_nonneg

/-- Evaluation rule for lengths with a known square. -/
theorem length_eq_of_sq {v : Vec3} {c : ℝ} (hc : 0 ≤ c) (h : v.lengthSq = c ^ 2) :
    v.length = c := by rw [length, h, Real.sqrt_sq hc]

/-- The zero vector has zero length. -/
theorem length_zero_vec : (zero : Vec3).length = 0 := by
  simp [length, lengthSq, zero]

/-- Zero squared length characterises the zero vector. -/
theorem lengthSq_eq_zero_iff {v : Vec3} : v.lengthSq = 0 ↔ v = zero := by
  constructor
  · intro h
    simp only [lengthSq] at h
    obtain ⟨x, y, z⟩ := v
    have hx : x = 0 := by nlinarith [sq_nonneg x, sq_nonneg y, sq_nonneg z]
    have hy : y = 0 := by nlinarith [sq_nonneg x, sq_nonneg y, sq_nonneg z]
    have hz : z = 0 := by nlinarith [sq_nonneg x, sq_nonneg y, sq_nonneg z]
    simp [zero, hx, hy, hz]
  · rintro rfl; simp [lengthSq, zero]

/-- Zero length characterises the zero vector. -/
theorem length_eq_zero_iff {v : Vec3} : v.length = 0 ↔ v = zero := by
  rw [length, Real.sqrt_eq_zero (lengthSq_nonneg v), lengthSq_eq_zero_iff]

/-- Nonzero vectors have positive length. -/
theorem length_pos_of_ne {v : Vec3} (h : v ≠ zero) : 0 < v.length :=
  lt_of_le_of_ne (length_nonneg v) fun h0 => h (length_eq_zero_iff.mp h0.symm)

/-- Squared length of a scalar multiple. -/
theorem lengthSq_smul (c : ℝ) (v : Vec3) : (smul c v).lengthSq = c ^ 2 * v.lengthSq := by
  simp only [smul, lengthSq]; ring

/-- Length of a scalar multiple. -/
theorem length_smul (c : ℝ) (v : Vec3) : (smul c v).length = |c| * v.length := by
  rw [length, lengthSq_smul, Real.sqrt_mul (sq_nonneg c), Real.sqrt_sq_eq_abs, length]

/-- Length is invariant under negation. -/
theorem length_neg (v : Vec3) : v.neg.length = v.length := by
  simp only [length, lengthSq, neg]; ring_nf

/-- A nonzero vector normalises to a unit vector. -/
theorem length_normalize {v : Vec3} (h : v ≠ zero) : v.normalize.length = 1 := by
  have hl : v.length ≠ 0 := fun h0 => h (length_eq_zero_iff.mp h0)
  have hlpos : 0 < v.length := length_pos_of_ne h
  rw [normalize, if_neg hl, length_smul, abs_of_pos (one_div_pos.mpr hlpos)]
  field_simp

/-- The squared length of a normalised nonzero vector is one. -/
theorem lengthSq_normalize {v : Vec3} (h : v ≠ zero) : v.normalize.lengthSq = 1 := by
  have := length_normalize h
  have h2 := sq_length v.normalize
  rw [this] at h2; simpa using h2.symm

/-- Cauchy-Schwarz for the embedded dot product. -/
theorem dot_le_length_mul (a b : Vec3) : dot a b ≤ a.length * b.length := by
  have h2 : dot a b ^ 2 ≤ a.lengthSq * b.lengthSq := by
    simp only [dot, lengthSq]
    nlinarith [sq_nonneg (a.x * b.y - a.y * b.x), sq_nonneg (a.x * b.z - a.z * b.x),
      sq_nonneg (a.y * b.z - a.z * b.y)]
  calc dot a b ≤ |dot a b| := le_abs_self _
    _ = Real.sqrt (dot a b ^ 2) := (Real.sqrt_sq_eq_abs _).symm
    _ ≤ Real.sqrt (a.lengthSq * b.lengthSq) := Real.sqrt_le_sqrt h2
    _ = a.length * b.length := by
        rw [length, length, ← Real.sqrt_mul (lengthSq_nonneg a)]

/-- Squared length of a sum. -/
theorem lengthSq_add (a b : Vec3) :
    (a.add b).lengthSq = a.lengthSq + 2 * dot a b + b.lengthSq := by
  simp only [add, lengthSq, dot]; ring

/-- Triangle inequality. -/
theorem length_add_le (a b : Vec3) : (a.add b).length ≤ a.length + b.length := by
  rw [length, Real.sqrt_le_iff]
  refine ⟨add_nonneg (length_nonneg a) (length_nonneg b), ?_⟩
  rw [lengthSq_add]
  nlinarith [dot_le_length_mul a b, sq_length a, sq_length b]

/-- Cancellation of an added vector. -/
theorem add_neg_cancel_vec (a b : Vec3) : (a.add b).add b.neg = a := by
  simp [add, neg]

/-- Reverse triangle inequality. -/
theorem sub_length_le (a b : Vec3) : a.length - b.length ≤ (a.add b).length := by
  have h := length_add_le (a.add b) b.neg
  rw [add_neg_cancel_vec, length_neg] at h
  linarith

/-- Interpolation written as a convex-style combination. -/
theorem lerp_eq (v t : Vec3) (a : ℝ) : lerp v t a = (smul (1 - a) v).add (smul a t) := by
  simp only [lerp, smul, add, Vec3.mk.injEq]
  refine ⟨by ring, by ring, by ring⟩

/-- Interpolating toward the vector itself is the identity. -/
theorem lerp_self (v : Vec3) (a : ℝ) : lerp v v a = v := by
  simp [lerp]

end Vec3

/-- Smoothing toward the current value is the identity. -/
theorem smoothInput_same (c r : ℝ) : smoothInput c c r = c := by
  simp [smoothInput, mathSign]

/-- The smoothed value stays between the current value and the target. -/
theorem smoothInput_mem (c t r : ℝ) (hr : 0 ≤ r) :
    min c t ≤ smoothInput c t r ∧ smoothInput c t r ≤ max c t := by
  by_cases heq : t = c
  · subst heq
    rw [smoothInput_same]
    exact ⟨min_le_left t t, le_max_left t t⟩
  unfold smoothInput mathSign
  rcases lt_trichotomy (t - c) 0 with h | h | h
  · simp only [if_pos h]
    by_cases h2 : |t - c| ≤ |r * (-1 : ℝ)|
    · simp only [if_pos h2]
      exact ⟨min_le_right c t, le_max_right c t⟩
    · simp only [if_neg h2]
      rw [abs_of_neg h, abs_of_nonpos (by linarith : r * (-1 : ℝ) ≤ 0)] at h2
      push_neg at h2
      constructor
      · exact le_trans (min_le_right c t) (by nlinarith)
      · exact le_trans (by nlinarith) (le_max_left c t)
  · exact absurd (by linarith) heq
  · have hn : ¬t - c < 0 := by linarith
    simp only [if_neg hn, if_pos h]
    by_cases h2 : |t - c| ≤ |r * (1 : ℝ)|
    · simp only [if_pos h2]
      exact ⟨min_le_right c t, le_max_right c t⟩
    · simp only [if_neg h2]
      rw [abs_of_pos h, abs_of_nonneg (by linarith : 0 ≤ r * (1 : ℝ))] at h2
      push_neg at h2
      constructor
      · exact le_trans (min_le_left c t) (by nlinarith)
      · exact le_trans (by nlinarith) (le_max_right c t)

/-- The smoothed value is bounded by the current and target magnitudes. -/
theorem smoothInput_abs_le (c t r : ℝ) (hr : 0 ≤ r) :
    |smoothInput c t r| ≤ max |c| |t| := by
  obtain ⟨h1, h2⟩ := smoothInput_mem c t r hr
  rw [abs_le]
  constructor
  · refine le_trans ?_ h1
    rw [le_min_iff]
    exact ⟨le_trans (neg_le_neg (le_max_left |c| |t|)) (neg_abs_le c),
           le_trans (neg_le_neg (le_max_right |c| |t|)) (neg_abs_le t)⟩
  · exact le_trans h2 (max_le_max (le_abs_self c) (le_abs_self t))

/-- One smoothing step shrinks the distance to the target by exactly the
rate, stopping at zero. -/
theorem smoothInput_dist (c t r : ℝ) (hr : 0 ≤ r) :
    |smoothInput c t r - t| = max (|c - t| - r) 0 := by
  by_cases heq : t = c
  · subst heq
    rw [smoothInput_same, sub_self, abs_zero, zero_sub, max_eq_right (neg_nonpos.mpr hr)]
  unfold smoothInput mathSign
  rcases lt_trichotomy (t - c) 0 with h | h | h
  · simp only [if_pos h]
    by_cases h2 : |t - c| ≤ |r * (-1 : ℝ)|
    · simp only [if_pos h2]
      rw [abs_of_neg h, abs_of_nonpos (by linarith : r * (-1 : ℝ) ≤ 0)] at h2
      rw [sub_self, abs_zero, max_eq_right]
      rw [abs_of_pos (by linarith : 0 < c - t)]
      linarith
    · simp only [if_neg h2]
      rw [abs_of_neg h, abs_of_nonpos (by linarith : r * (-1 : ℝ) ≤ 0)] at h2
      push_neg at h2
      rw [abs_of_pos (by linarith : 0 < c + r * (-1) - t), abs_of_pos (by linarith : 0 < c - t),
        max_eq_left (by linarith)]
      ring
  · exact absurd (by linarith) heq
  · have hn : ¬t - c < 0 := by linarith
    simp only [if_neg hn, if_pos h]
    by_cases h2 : |t - c| ≤ |r * (1 : ℝ)|
    · simp only [if_pos h2]
      rw [abs_of_pos h, abs_of_nonneg (by linarith : 0 ≤ r * (1 : ℝ))] at h2
      rw [sub_self, abs_zero, max_eq_right]
      rw [abs_of_neg (by linarith : c - t < 0)]
      linarith
    · simp only [if_neg h2]
      rw [abs_of_pos h, abs_of_nonneg (by linarith : 0 ≤ r * (1 : ℝ))] at h2
      push_neg at h2
      rw [abs_of_neg (by linarith : c + r * 1 - t < 0), abs_of_neg (by linarith : c - t < 0),
        max_eq_left (by linarith)]
      ring

/-- The facing direction has unit squared length. -/
theorem forwardDir_lengthSq (yaw : ℝ) : (forwardDir yaw).lengthSq = 1 := by
  simp only [forwardDir, Vec3.lengthSq]
  nlinarith [Real.sin_sq_add_cos_sq yaw]

/-- The facing direction is a unit vector. -/
theorem forwardDir_length (yaw : ℝ) : (forwardDir yaw).length = 1 :=
  Vec3.length_eq_of_sq (by norm_num) (by rw [forwardDir_lengthSq]; norm_num)

/-- Normalising the zero vector is the identity (the `length() || 1`
guard of three.js). -/
theorem normalize_zero_vec : (Vec3.zero).normalize = Vec3.zero := by
  rw [Vec3.normalize, if_pos Vec3.length_zero_vec]

/-- Scaling the zero vector gives the zero vector. -/
theorem smul_zero_vec (c : ℝ) : Vec3.zero.smul c = Vec3.zero := by
  simp [Vec3.smul, Vec3.zero]

/-- Adding an air-resistance step along the unit velocity direction is a
scalar shrink of the velocity. -/
theorem add_normalize_smul_length (v : Vec3) (h : v ≠ Vec3.zero) (t : ℝ) :
    v.add (v.normalize.smul (v.length * t)) = v.smul (1 + t) := by
  have hl : v.length ≠ 0 := fun h0 => h (Vec3.length_eq_zero_iff.mp h0)
  rw [Vec3.normalize, if_neg hl]
  simp only [Vec3.smul, Vec3.add, Vec3.mk.injEq]
  refine ⟨?_, ?_, ?_⟩ <;> field_simp <;> ring

/-- Clamping a vector to a cap bounds its length by the cap. -/
theorem clamp_length_le (v : Vec3) (cap : ℝ) (hcap : 0 ≤ cap) :
    (if cap < v.length then v.normalize.smul cap else v).length ≤ cap := by
  split_ifs with h
  · have hv : v ≠ Vec3.zero := by
      intro hz; rw [hz, Vec3.length_zero_vec] at h; linarith
    rw [Vec3.length_smul, Vec3.length_normalize hv, abs_of_nonneg hcap, mul_one]
  · exact le_of_not_lt h

/-- A vector renormalised to a cap it exceeds has length the cap. -/
theorem clamped_length (v : Vec3) (cap : ℝ) (hcap : 0 ≤ cap) (h : cap < v.length) :
    (v.normalize.smul cap).length ≤ cap := by
  have hv : v ≠ Vec3.zero := by
    intro hz; rw [hz, Vec3.length_zero_vec] at h; linarith
  rw [Vec3.length_smul, Vec3.length_normalize hv, abs_of_nonneg hcap, mul_one]

/-- The linear-velocity phase never produces a speed above `maxSpeed`
from a speed that respects it, for frame steps up to a quarter second. -/
theorem updateLinearVelocity_length_le (s : KartState) (dt : ℝ)
    (hthr : |s.throttleInput| ≤ 1) (hdt0 : 0 ≤ dt) (hdt1 : dt ≤ 1 / 4)
    (hv : s.velocity.length ≤ 120) :
    (updateLinearVelocity kartConfig s dt).velocity.length ≤ 120 := by
  have h120 : (0 : ℝ) ≤ 120 := by norm_num
  have hL0 : 0 ≤ s.velocity.length := Vec3.length_nonneg s.velocity
  have habs : 0 ≤ |s.throttleInput| := abs_nonneg _
  simp only [updateLinearVelocity, kartConfig]
  simp only [apply_ite (KartState.velocity), apply_ite (Vec3.length)]
  set F : ℝ := if s.velocity.length < 15 then (1.3 : ℝ)
    else if s.velocity.length < 40 then (1.1 : ℝ)
    else (0.3 : ℝ) ⊔ (1 - s.velocity.length / 100) with hF
  have hF0 : 0 ≤ F := by
    rw [hF]; split_ifs
    · norm_num
    · norm_num
    · exact le_trans (by norm_num) (le_max_left _ _)
  have hF13 : F ≤ 1.3 := by
    rw [hF]; split_ifs
    · norm_num
    · norm_num
    · exact max_le (by norm_num) (by nlinarith)
  have hm : |s.throttleInput| * F ≤ 1.3 := by
    calc |s.throttleInput| * F ≤ 1 * 1.3 := mul_le_mul hthr hF13 hF0 zero_le_one
      _ = 1.3 := by norm_num
  have hm0 : 0 ≤ |s.throttleInput| * F := mul_nonneg habs hF0
  have hp1 : |s.throttleInput| * F * 0.9 * dt ≤ 0.2925 := by
    have h9 : |s.throttleInput| * F * 0.9 ≤ 1.17 := by nlinarith
    calc |s.throttleInput| * F * 0.9 * dt ≤ 1.17 * (1 / 4) :=
          mul_le_mul h9 hdt1 hdt0 (by norm_num)
      _ = 0.2925 := by norm_num
  have hp2 : |s.throttleInput| * F * 0.675 * dt ≤ 0.219375 := by
    have h6 : |s.throttleInput| * F * 0.675 ≤ 0.8775 := by nlinarith
    calc |s.throttleInput| * F * 0.675 * dt ≤ 0.8775 * (1 / 4) :=
          mul_le_mul h6 hdt1 hdt0 (by norm_num)
      _ = 0.219375 := by norm_num
  have hp1n : 0 ≤ |s.throttleInput| * F * 0.9 * dt :=
    mul_nonneg (mul_nonneg hm0 (by norm_num)) hdt0
  have hp2n : 0 ≤ |s.throttleInput| * F * 0.675 * dt :=
    mul_nonneg (mul_nonneg hm0 (by norm_num)) hdt0
  have hk1 : 0 ≤ 1 - |s.throttleInput| * F * 0.9 * dt := by linarith
  have hk2 : 0 ≤ 1 - |s.throttleInput| * F * 0.675 * dt := by linarith
  have hk3 : 1 - |s.throttleInput| * F * 0.9 * dt ≤ 1 := by linarith
  have hk4 : 1 - |s.throttleInput| * F * 0.675 * dt ≤ 1 := by linarith
  have hk0 : 0 ≤ (1 - |s.throttleInput| * F * 0.9 * dt) *
      (1 - |s.throttleInput| * F * 0.675 * dt) := mul_nonneg hk1 hk2
  have hk5 : (1 - |s.throttleInput| * F * 0.9 * dt) *
      (1 - |s.throttleInput| * F * 0.675 * dt) ≤ 1 := mul_le_one₀ hk3 hk2 hk4
  split_ifs with hA hB hC hD hE hS hG hH
  · exact clamped_length _ 120 h120 hC
  · exact le_of_not_lt hC
  · exact clamped_length _ 120 h120 hE
  · exact le_of_not_lt hE
  · rw [Vec3.length_zero_vec]; norm_num
  · rw [Vec3.length_smul]
    have hGnn := Vec3.length_nonneg (Vec3.smul ((1 - |s.throttleInput| * F * 0.9 * dt) *
      (1 - |s.throttleInput| * F * 0.675 * dt)) s.velocity)
    rw [show |(0.9 : ℝ)| = 0.9 from by norm_num]
    linarith
  · rw [Vec3.length_smul, abs_of_nonneg hk0]
    calc (1 - |s.throttleInput| * F * 0.9 * dt) *
        (1 - |s.throttleInput| * F * 0.675 * dt) * s.velocity.length ≤ 1 * 120 :=
          mul_le_mul hk5 hv hL0 zero_le_one
      _ = 120 := one_mul 120
  · exact hv
  · exact hv

/-- Composition of scalar multiples. -/
theorem smul_smul_vec (a b : ℝ) (v : Vec3) : (v.smul b).smul a = v.smul (a * b) := by
  simp only [Vec3.smul, Vec3.mk.injEq]
  refine ⟨by ring, by ring, by ring⟩

/-- A scalar multiple with factor in the unit ball does not increase length. -/
theorem smul_length_le_self (v : Vec3) (k : ℝ) (h0 : -1 ≤ k) (h1 : k ≤ 1) :
    (v.smul k).length ≤ v.length := by
  rw [Vec3.length_smul]
  have hk : |k| ≤ 1 := abs_le.mpr ⟨h0, h1⟩
  have := Vec3.length_nonneg v
  nlinarith [abs_nonneg k]

/-- The air-resistance update is a scalar shrink of a nonzero velocity. -/
theorem air_velocity_eq (v : Vec3) (hz : v ≠ Vec3.zero) (m dt : ℝ) :
    v.add (v.normalize.smul (-(v.length * 0.008 * m) * dt)) = v.smul (1 - 0.008 * m * dt) := by
  calc v.add (v.normalize.smul (-(v.length * 0.008 * m) * dt))
      = v.add (v.normalize.smul (v.length * (-(0.008 * m * dt)))) := by
        rw [show -(v.length * 0.008 * m) * dt = v.length * (-(0.008 * m * dt)) from by ring]
    _ = v.smul (1 + -(0.008 * m * dt)) := add_normalize_smul_length v hz _
    _ = v.smul (1 - 0.008 * m * dt) := by
        rw [show (1 : ℝ) + -(0.008 * m * dt) = 1 - 0.008 * m * dt from by ring]

/-- The resistance phase never increases the speed for frame steps up to a
quarter second. -/
theorem applyResistance_length_le (s : KartState) (dt : ℝ)
    (hdt0 : 0 ≤ dt) (hdt1 : dt ≤ 1 / 4) :
    (applyResistance kartConfig s dt).velocity.length ≤ s.velocity.length := by
  by_cases hz : s.velocity = Vec3.zero
  · simp only [applyResistance, kartConfig, hz, normalize_zero_vec, smul_zero_vec]
    simp only [apply_ite (KartState.velocity), apply_ite (Vec3.length)]
    split_ifs <;>
      norm_num [Vec3.add, Vec3.zero, Vec3.smul, Vec3.length, Vec3.lengthSq]
  · have hLpos : 0 < s.velocity.length := Vec3.length_pos_of_ne hz
    simp only [applyResistance, kartConfig]
    simp only [apply_ite (KartState.velocity), apply_ite (Vec3.length)]
    split_ifs with hbrake hgnd hcoast hgrip hgnd2 hcoast2 hgrip2
    all_goals first
      | (rw [air_velocity_eq s.velocity hz, smul_smul_vec]
         apply smul_length_le_self <;> nlinarith)
      | (rw [air_velocity_eq s.velocity hz]
         apply smul_length_le_self <;> nlinarith)

/-- The drift phase never increases the speed for frame steps up to a
quarter second. -/
theorem processDrift_length_le (s : KartState) (dt : ℝ)
    (hdt0 : 0 ≤ dt) (hdt1 : dt ≤ 1 / 4) :
    (processDrift s dt).velocity.length ≤ s.velocity.length := by
  have hL0 : 0 ≤ s.velocity.length := Vec3.length_nonneg s.velocity
  simp only [processDrift]
  simp only [apply_ite (KartState.velocity), apply_ite (Vec3.length)]
  split_ifs with hdr hsp hbr hsp2
  · have hz : s.velocity ≠ Vec3.zero := by
      intro h0; rw [h0, Vec3.length_zero_vec] at hsp; norm_num at hsp
    set L := s.velocity.length with hLdef
    set sf : ℝ := L / 40 ⊓ 1 with hsf
    have hsf0 : 0 ≤ sf := le_min (div_nonneg hL0 (by norm_num)) zero_le_one
    have hsf1 : sf ≤ 1 := min_le_right _ _
    have hsi0 : 0 ≤ 0.15 * (1 - sf * 0.5) := by nlinarith
    have hmp0 : 0 ≤ 1 - 0.15 * (1 - sf * 0.5) := by nlinarith
    have hpres : (Vec3.smul (L * (1 - 0.15 * (1 - sf * 0.5))) s.velocity.normalize).length
        = L * (1 - 0.15 * (1 - sf * 0.5)) := by
      rw [Vec3.length_smul, Vec3.length_normalize hz, mul_one,
        abs_of_nonneg (mul_nonneg hL0 hmp0)]
    have hsteer : (Vec3.smul (L * (0.15 * (1 - sf * 0.5))) (forwardDir s.yaw)).length
        = L * (0.15 * (1 - sf * 0.5)) := by
      rw [Vec3.length_smul, forwardDir_length, mul_one, abs_of_nonneg (mul_nonneg hL0 hsi0)]
    rw [Vec3.length_smul]
    have htri := Vec3.length_add_le
      (Vec3.smul (L * (1 - 0.15 * (1 - sf * 0.5))) s.velocity.normalize)
      (Vec3.smul (L * (0.15 * (1 - sf * 0.5))) (forwardDir s.yaw))
    rw [hpres, hsteer] at htri
    have hsum : L * (1 - 0.15 * (1 - sf * 0.5)) + L * (0.15 * (1 - sf * 0.5)) = L := by ring
    rw [hsum] at htri
    have hXnn := Vec3.length_nonneg
      ((Vec3.smul (L * (1 - 0.15 * (1 - sf * 0.5))) s.velocity.normalize).add
        (Vec3.smul (L * (0.15 * (1 - sf * 0.5))) (forwardDir s.yaw)))
    rw [show |(0.985 : ℝ)| = 0.985 from by norm_num]
    linarith
  · exact le_refl _
  · exact le_refl _
  · set L := s.velocity.length with hLdef
    set a : ℝ := 1.5 * dt * (1 - (L / 40 ⊓ 1) * 0.8) with ha
    have hsf0 : 0 ≤ L / 40 ⊓ 1 := le_min (div_nonneg hL0 (by norm_num)) zero_le_one
    have hsf1 : L / 40 ⊓ 1 ≤ 1 := min_le_right _ _
    have ha0 : 0 ≤ a := by
      rw [ha]
      have h1 : 0 ≤ 1 - (L / 40 ⊓ 1) * 0.8 := by nlinarith
      have h2 : 0 ≤ 1.5 * dt := by linarith
      exact mul_nonneg h2 h1
    have ha1 : a ≤ 1 := by
      rw [ha]
      have h1 : 1 - (L / 40 ⊓ 1) * 0.8 ≤ 1 := by nlinarith
      have h2 : 1.5 * dt ≤ 0.375 := by linarith
      have h3 : 0 ≤ 1 - (L / 40 ⊓ 1) * 0.8 := by nlinarith
      calc 1.5 * dt * (1 - (L / 40 ⊓ 1) * 0.8) ≤ 0.375 * 1 := mul_le_mul h2 h1 h3 (by norm_num)
        _ ≤ 1 := by norm_num
    rw [Vec3.lerp_eq]
    have h1 : (Vec3.smul (1 - a) s.velocity).length = (1 - a) * L := by
      rw [Vec3.length_smul, abs_of_nonneg (by linarith : (0:ℝ) ≤ 1 - a)]
    have h2 : (Vec3.smul a (Vec3.smul L (forwardDir s.yaw))).length = a * L := by
      rw [Vec3.length_smul, Vec3.length_smul, forwardDir_length, mul_one,
        abs_of_nonneg ha0, abs_of_nonneg hL0]
    have htri := Vec3.length_add_le (Vec3.smul (1 - a) s.velocity)
      (Vec3.smul a (Vec3.smul L (forwardDir s.yaw)))
    rw [h1, h2] at htri
    nlinarith [htri]
  · exact le_refl _

/-- The input phase does not touch the velocity. -/
theorem inputPhase_velocity (s : KartState) (input : Option KartControlInput) (dt : ℝ) :
    (inputPhase s input dt).velocity = s.velocity := by
  cases input <;> rfl

/-- The input phase does not touch the reversing flag. -/
theorem inputPhase_isReversing (s : KartState) (input : Option KartControlInput) (dt : ℝ) :
    (inputPhase s input dt).isReversing = s.isReversing := by
  cases input <;> rfl

/-- The input phase keeps the smoothed throttle in the unit interval when
the raw throttle is in it. -/
theorem inputPhase_throttle_abs_le (s : KartState) (input : Option KartControlInput) (dt : ℝ)
    (hdt : 0 ≤ dt) (hs : |s.throttleInput| ≤ 1)
    (hin : ∀ i, input = some i → |i.throttle| ≤ 1) :
    |(inputPhase s input dt).throttleInput| ≤ 1 := by
  cases input with
  | none =>
      have h := smoothInput_abs_le s.throttleInput 0 (3 * dt) (by linarith)
      simp only [inputPhase, applyInputDecay]
      refine le_trans h ?_
      rw [abs_zero]
      exact max_le hs zero_le_one
  | some i =>
      have hi := hin i rfl
      have h := smoothInput_abs_le s.throttleInput i.throttle (8 * dt) (by linarith)
      simp only [inputPhase, processInput]
      exact le_trans h (max_le hs hi)

/-- Velocity-length cap after the collision velocity response. -/
theorem handleVelocityCollisionResponse_length_le (cfg : KartPhysicsConfig) (s : KartState)
    (n : Vec3) (hms : 0 ≤ cfg.maxSpeed * 0.8) :
    (handleVelocityCollisionResponse cfg s n).velocity.length ≤
      max s.velocity.length (cfg.maxSpeed * 0.8) := by
  simp only [handleVelocityCollisionResponse]
  simp only [apply_ite (KartState.velocity), apply_ite (Vec3.length)]
  split_ifs with h1 h2
  · exact le_max_left _ _
  · exact le_trans (clamped_length _ _ hms h2) (le_max_right _ _)
  · exact le_trans (le_of_not_lt h2) (le_max_right _ _)

/-- The collision response preserves the reversing flag. -/
theorem handleVelocityCollisionResponse_isReversing (cfg : KartPhysicsConfig) (s : KartState)
    (n : Vec3) :
    (handleVelocityCollisionResponse cfg s n).isReversing = s.isReversing := by
  simp only [handleVelocityCollisionResponse]
  split_ifs <;> rfl

/-- Velocity-length cap after the full collision response. -/
theorem applyCollisionResponse_length_le (cfg : KartPhysicsConfig) (s : KartState)
    (cols : List CollisionSample) (hms : 0 ≤ cfg.maxSpeed * 0.8) :
    (applyCollisionResponse cfg s cols).velocity.length ≤
      max s.velocity.length (cfg.maxSpeed * 0.8) := by
  cases cols with
  | nil => exact le_max_left _ _
  | cons c rest =>
      simp only [applyCollisionResponse]
      exact handleVelocityCollisionResponse_length_le cfg _ _ hms

/-- The full collision response preserves the reversing flag. -/
theorem applyCollisionResponse_isReversing (cfg : KartPhysicsConfig) (s : KartState)
    (cols : List CollisionSample) :
    (applyCollisionResponse cfg s cols).isReversing = s.isReversing := by
  cases cols with
  | nil => rfl
  | cons c rest =>
      simp only [applyCollisionResponse]
      exact handleVelocityCollisionResponse_isReversing cfg _ _

/-- Velocity-length cap after the transform-and-collision phase. -/
theorem updateCharacterTransform_length_le (cfg : KartPhysicsConfig)
    (raycast : Vec3 → Vec3 → Option (ℝ × Vec3 × Vec3)) (s : KartState) (dt : ℝ)
    (hms : 0 ≤ cfg.maxSpeed * 0.8) :
    (updateCharacterTransform cfg raycast s dt).velocity.length ≤
      max s.velocity.length (cfg.maxSpeed * 0.8) := by
  simp only [updateCharacterTransform]
  exact applyCollisionResponse_length_le cfg _ _ hms

/-- The transform-and-collision phase preserves the reversing flag. -/
theorem updateCharacterTransform_isReversing (cfg : KartPhysicsConfig)
    (raycast : Vec3 → Vec3 → Option (ℝ × Vec3 × Vec3)) (s : KartState) (dt : ℝ) :
    (updateCharacterTransform cfg raycast s dt).isReversing = s.isReversing := by
  simp only [updateCharacterTransform]
  exact applyCollisionResponse_isReversing cfg _ _

/-- The skid detector does not touch the velocity. -/
theorem updateSkiddingState_velocity (s : KartState) :
    (updateSkiddingState s).velocity = s.velocity := by
  simp only [updateSkiddingState]
  split_ifs <;> rfl

/-- The skid detector preserves the reversing flag. -/
theorem updateSkiddingState_isReversing (s : KartState) :
    (updateSkiddingState s).isReversing = s.isReversing := by
  simp only [updateSkiddingState]
  split_ifs <;> rfl

/-- With a ground hit, the ground-contact step does not touch the velocity. -/
theorem maintainGroundContact_velocity_hit
    (raycast : Vec3 → Vec3 → Option (ℝ × Vec3 × Vec3)) (s : KartState) (dt : ℝ)
    (d : ℝ) (n p : Vec3) (h : raycast s.position ⟨0, -1, 0⟩ = some (d, n, p)) :
    (maintainGroundContact raycast s dt).velocity = s.velocity := by
  simp only [maintainGroundContact, h]

/-- The ground-contact step preserves the reversing flag. -/
theorem maintainGroundContact_isReversing
    (raycast : Vec3 → Vec3 → Option (ℝ × Vec3 × Vec3)) (s : KartState) (dt : ℝ) :
    (maintainGroundContact raycast s dt).isReversing = s.isReversing := by
  rcases h : raycast s.position ⟨0, -1, 0⟩ with _ | ⟨d, n, p⟩ <;>
    simp only [maintainGroundContact, h]

/-- The respawn check never increases the speed. -/
theorem checkRespawnBounds_length_le (spawn : SpawnConfigurationState) (s : KartState)
    (r1 r2 r3 : ℝ) :
    (checkRespawnBounds spawn s r1 r2 r3).velocity.length ≤ s.velocity.length := by
  simp only [checkRespawnBounds]
  split_ifs with h
  · rw [show (resetPosition spawn s r1 r2 r3).velocity = Vec3.zero from rfl,
      Vec3.length_zero_vec]
    exact Vec3.length_nonneg _
  · exact le_refl _

/-- The respawn check preserves the reversing flag. -/
theorem checkRespawnBounds_isReversing (spawn : SpawnConfigurationState) (s : KartState)
    (r1 r2 r3 : ℝ) :
    (checkRespawnBounds spawn s r1 r2 r3).isReversing = s.isReversing := by
  simp only [checkRespawnBounds]
  split_ifs <;> rfl

/-- C1 (amended): with the kart grounded for the frame (the downward ground
probe hits something), a frame update from a state whose speed and smoothed
throttle respect their ranges ends with the speed still at most the
configured `maxSpeed`; the claim as frozen, which drops the grounded
assumption, fails because gravity is added after the speed clamp (see the
counterexample). -/
theorem C1_amended_speed_clamp (spawn : SpawnConfigurationState)
    (raycast : Vec3 → Vec3 → Option (ℝ × Vec3 × Vec3)) (s : KartState)
    (input : Option KartControlInput) (dt r1 r2 r3 : ℝ)
    (hv : s.velocity.length ≤ kartConfig.maxSpeed)
    (hthr : |s.throttleInput| ≤ 1)
    (hin : ∀ i, input = some i → |i.throttle| ≤ 1)
    (hdt0 : 0 ≤ dt) (hdt1 : dt ≤ 1 / 4)
    (hground : ∀ q : Vec3, ∃ hit, raycast q ⟨0, -1, 0⟩ = some hit) :
    (update kartConfig spawn raycast s input dt r1 r2 r3).velocity.length ≤
      kartConfig.maxSpeed := by
  have hms : kartConfig.maxSpeed = (120 : ℝ) := rfl
  rw [hms] at hv ⊢
  simp only [update, preRespawn, updateKartPhysics]
  have h1t : |(inputPhase s input dt).throttleInput| ≤ 1 :=
    inputPhase_throttle_abs_le s input dt hdt0 hthr hin
  have h1v : (inputPhase s input dt).velocity = s.velocity := inputPhase_velocity s input dt
  set s1 := inputPhase s input dt
  have h2 : (updateLinearVelocity kartConfig s1 dt).velocity.length ≤ 120 :=
    updateLinearVelocity_length_le s1 dt h1t hdt0 hdt1 (by rw [h1v]; exact hv)
  set s2 := updateLinearVelocity kartConfig s1 dt
  have h3 : (updateAngularVelocity kartConfig s2 dt).velocity = s2.velocity := rfl
  set s3 := updateAngularVelocity kartConfig s2 dt
  have h4 : (applyResistance kartConfig s3 dt).velocity.length ≤ s3.velocity.length :=
    applyResistance_length_le s3 dt hdt0 hdt1
  set s4 := applyResistance kartConfig s3 dt
  have h5 : (processDrift s4 dt).velocity.length ≤ s4.velocity.length :=
    processDrift_length_le s4 dt hdt0 hdt1
  set s5 := processDrift s4 dt
  have h6 : (updateCharacterTransform kartConfig raycast s5 dt).velocity.length ≤
      max s5.velocity.length (kartConfig.maxSpeed * 0.8) :=
    updateCharacterTransform_length_le kartConfig raycast s5 dt (by norm_num [kartConfig])
  set s6 := updateCharacterTransform kartConfig raycast s5 dt
  have h7 : (updateSkiddingState s6).velocity = s6.velocity := updateSkiddingState_velocity s6
  set s7 := updateSkiddingState s6
  obtain ⟨⟨d, n, p⟩, hhit⟩ := hground s7.position
  have h8 : (maintainGroundContact raycast s7 dt).velocity = s7.velocity :=
    maintainGroundContact_velocity_hit raycast s7 dt d n p hhit
  set s8 := maintainGroundContact raycast s7 dt
  have h9 : (checkRespawnBounds spawn s8 r1 r2 r3).velocity.length ≤ s8.velocity.length :=
    checkRespawnBounds_length_le spawn s8 r1 r2 r3
  have hcap : kartConfig.maxSpeed * 0.8 ≤ (120 : ℝ) := by norm_num [kartConfig]
  calc (checkRespawnBounds spawn s8 r1 r2 r3).velocity.length
      ≤ s8.velocity.length := h9
    _ = s7.velocity.length := by rw [h8]
    _ = s6.velocity.length := by rw [h7]
    _ ≤ max s5.velocity.length (kartConfig.maxSpeed * 0.8) := h6
    _ ≤ 120 := max_le (le_trans h5 (le_trans h4 (by rw [h3]; exact h2))) hcap

/-- Witness for the amended C1 theorem: one grounded full-throttle frame
from rest at sixty frames per second stays below the speed cap. -/
theorem C1_amended_speed_clamp_witness :
    (update kartConfig wideSpawn planeRaycast (coastState 0 1)
      (some ⟨1, 0, false⟩) (1 / 60) (1 / 2) (1 / 2) (1 / 2)).velocity.length ≤
      kartConfig.maxSpeed :=
  C1_amended_speed_clamp wideSpawn planeRaycast (coastState 0 1) (some ⟨1, 0, false⟩)
    (1 / 60) (1 / 2) (1 / 2) (1 / 2)
    (by
      rw [show (coastState 0 1).velocity = (⟨0, 0, 1⟩ : Vec3) from rfl,
        Vec3.length_eq_of_sq zero_le_one (by norm_num [Vec3.lengthSq])]
      norm_num [kartConfig])
    (by norm_num [coastState])
    (by
      intro i hi
      injection hi with h
      rw [← h]
      norm_num)
    (by norm_num) (by norm_num)
    (fun q => ⟨(q.y, ⟨0, 1, 0⟩, ⟨q.x, 0, q.z⟩), by norm_num [planeRaycast]⟩)

/-- With an all-miss raycast oracle the perimeter probes record nothing. -/
theorem performCollisionChecks_noHit (p : Vec3) (yaw : ℝ) :
    performCollisionChecks noHitRaycast p yaw = [] := by
  simp [performCollisionChecks, noHitRaycast]

/-- One airborne full-throttle frame at sixty frames per second, evaluated
exactly up to the respawn check. -/
theorem airbornePre_eval :
    preRespawn kartConfig noHitRaycast
      ⟨⟨0, 50, 0⟩, 0, ⟨0, -(168/5), 3421/30⟩, 0, 1, 0, False, False, False, False⟩
      (some ⟨1, 0, false⟩) (1/60) =
    ⟨⟨0, 927053893/18750000, 36002699/18750000⟩, 0,
      ⟨0, -(15745723/468750), 36002699/312500⟩, 0, 1, 0, False, False, False, False⟩ := by
  have hlen2 : (⟨0, -(168/5), 576/5⟩ : Vec3).length = 120 :=
    Vec3.length_eq_of_sq (by norm_num) (by norm_num [Vec3.lengthSq])
  have hlen4 : (⟨0, -(104986/3125), 359952/3125⟩ : Vec3).length = 14998/125 :=
    Vec3.length_eq_of_sq (by norm_num) (by norm_num [Vec3.lengthSq])
  have h1 : processInput
      ⟨⟨0, 50, 0⟩, 0, ⟨0, -(168/5), 3421/30⟩, 0, 1, 0, False, False, False, False⟩
      ⟨1, 0, false⟩ (1/60) =
      ⟨⟨0, 50, 0⟩, 0, ⟨0, -(168/5), 3421/30⟩, 0, 1, 0, False, False, False, False⟩ := by
    simp only [processInput]
    norm_num [smoothInput_same, KartState.mk.injEq, eq_iff_iff]
  have h2 : updateLinearVelocity kartConfig
      ⟨⟨0, 50, 0⟩, 0, ⟨0, -(168/5), 3421/30⟩, 0, 1, 0, False, False, False, False⟩ (1/60) =
      ⟨⟨0, 50, 0⟩, 0, ⟨0, -(168/5), 576/5⟩, 0, 1, 0, False, False, False, False⟩ := by
    simp only [updateLinearVelocity, kartConfig]
    norm_num [hlen2, KartState.mk.injEq, eq_iff_iff, forwardDir, Vec3.add, Vec3.smul]
  have h3 : updateAngularVelocity kartConfig
      ⟨⟨0, 50, 0⟩, 0, ⟨0, -(168/5), 576/5⟩, 0, 1, 0, False, False, False, False⟩ (1/60) =
      ⟨⟨0, 50, 0⟩, 0, ⟨0, -(168/5), 576/5⟩, 0, 1, 0, False, False, False, False⟩ := by
    simp only [updateAngularVelocity, kartConfig]
    norm_num [KartState.mk.injEq, eq_iff_iff]
  have h4 : applyResistance kartConfig
      ⟨⟨0, 50, 0⟩, 0, ⟨0, -(168/5), 576/5⟩, 0, 1, 0, False, False, False, False⟩ (1/60) =
      ⟨⟨0, 50, 0⟩, 0, ⟨0, -(104986/3125), 359952/3125⟩, 0, 1, 0, False, False, False, False⟩ := by
    simp only [applyResistance, kartConfig]
    norm_num [hlen2, Vec3.normalize, KartState.mk.injEq, eq_iff_iff, Vec3.add, Vec3.smul]
  have h5 : processDrift
      ⟨⟨0, 50, 0⟩, 0, ⟨0, -(104986/3125), 359952/3125⟩, 0, 1, 0, False, False, False, False⟩ (1/60) =
      ⟨⟨0, 50, 0⟩, 0, ⟨0, -(10446107/312500), 36002699/312500⟩, 0, 1, 0, False, False, False, False⟩ := by
    simp only [processDrift]
    norm_num [hlen4, KartState.mk.injEq, eq_iff_iff, forwardDir, Vec3.lerp, Vec3.smul, min_def]
  have h6 : updateCharacterTransform kartConfig noHitRaycast
      ⟨⟨0, 50, 0⟩, 0, ⟨0, -(10446107/312500), 36002699/312500⟩, 0, 1, 0, False, False, False, False⟩ (1/60) =
      ⟨⟨0, 927053893/18750000, 36002699/18750000⟩, 0,
        ⟨0, -(10446107/312500), 36002699/312500⟩, 0, 1, 0, False, False, False, False⟩ := by
    simp only [updateCharacterTransform, performCollisionChecks_noHit, applyCollisionResponse]
    norm_num [KartState.mk.injEq, eq_iff_iff, Vec3.add, Vec3.smul]
  have h7 : updateSkiddingState
      ⟨⟨0, 927053893/18750000, 36002699/18750000⟩, 0,
        ⟨0, -(10446107/312500), 36002699/312500⟩, 0, 1, 0, False, False, False, False⟩ =
      ⟨⟨0, 927053893/18750000, 36002699/18750000⟩, 0,
        ⟨0, -(10446107/312500), 36002699/312500⟩, 0, 1, 0, False, False, False, False⟩ := by
    simp only [updateSkiddingState]
    norm_num [KartState.mk.injEq, eq_iff_iff]
  have h8 : maintainGroundContact noHitRaycast
      ⟨⟨0, 927053893/18750000, 36002699/18750000⟩, 0,
        ⟨0, -(10446107/312500), 36002699/312500⟩, 0, 1, 0, False, False, False, False⟩ (1/60) =
      ⟨⟨0, 927053893/18750000, 36002699/18750000⟩, 0,
        ⟨0, -(15745723/468750), 36002699/312500⟩, 0, 1, 0, False, False, False, False⟩ := by
    simp only [maintainGroundContact, noHitRaycast]
    norm_num [KartState.mk.injEq, eq_iff_iff]
  simp only [preRespawn, updateKartPhysics, inputPhase]
  rw [h1, h2, h3, h4, h5, h6, h7, h8]

/-- The same airborne frame through the full update: its position is inside
the generous respawn bounds, so the respawn check does nothing. -/
theorem airborneFrame_eval :
    update kartConfig wideSpawn noHitRaycast
      ⟨⟨0, 50, 0⟩, 0, ⟨0, -(168/5), 3421/30⟩, 0, 1, 0, False, False, False, False⟩
      (some ⟨1, 0, false⟩) (1/60) (1/2) (1/2) (1/2) =
    ⟨⟨0, 927053893/18750000, 36002699/18750000⟩, 0,
      ⟨0, -(15745723/468750), 36002699/312500⟩, 0, 1, 0, False, False, False, False⟩ := by
  rw [update, airbornePre_eval, checkRespawnBounds, if_neg]
  simp only [outsideRespawnBounds, wideSpawn]
  push_neg
  norm_num

/-- C1 fails as frozen: from an airborne state whose speed respects
`maxSpeed`, with full throttle held (raw and smoothed throttle both 1), a
single frame update ends with `|velocity|` strictly above `maxSpeed`,
because `maintainGroundContact` adds gravity to the vertical velocity after
the speed clamp has already run. -/
theorem C1_counterexample :
    (⟨⟨0, 50, 0⟩, 0, ⟨0, -(168/5), 3421/30⟩, 0, 1, 0, False, False, False, False⟩ :
        KartState).velocity.length ≤ kartConfig.maxSpeed ∧
    kartConfig.maxSpeed <
      (update kartConfig wideSpawn noHitRaycast
        ⟨⟨0, 50, 0⟩, 0, ⟨0, -(168/5), 3421/30⟩, 0, 1, 0, False, False, False, False⟩
        (some ⟨1, 0, false⟩) (1/60) (1/2) (1/2) (1/2)).velocity.length := by
  constructor
  · rw [show (⟨⟨0, 50, 0⟩, 0, ⟨0, -(168/5), 3421/30⟩, 0, 1, 0, False, False, False,
        False⟩ : KartState).velocity = (⟨0, -(168/5), 3421/30⟩ : Vec3) from rfl,
      show kartConfig.maxSpeed = (120 : ℝ) from rfl, Vec3.length, Real.sqrt_le_iff]
    refine ⟨by norm_num, ?_⟩
    norm_num [Vec3.lengthSq]
  · rw [airborneFrame_eval,
      show (⟨⟨0, 927053893/18750000, 36002699/18750000⟩, 0,
        ⟨0, -(15745723/468750), 36002699/312500⟩, 0, 1, 0, False, False, False,
        False⟩ : KartState).velocity =
        (⟨0, -(15745723/468750), 36002699/312500⟩ : Vec3) from rfl,
      show kartConfig.maxSpeed = (120 : ℝ) from rfl, Vec3.length,
      Real.lt_sqrt (by norm_num)]
    norm_num [Vec3.lengthSq]

/-- The jittered spawn coordinate stays within the variance of the spawn
coordinate for any unit-interval random sample. -/
theorem randomWithVariance_close (v variance r : ℝ) (hr0 : 0 ≤ r) (hr1 : r ≤ 1)
    (hv : 0 ≤ variance) : |randomWithVariance v variance r - v| ≤ variance := by
  rw [randomWithVariance, add_sub_cancel_left, abs_mul, abs_mul]
  have h1 : |r - 0.5| ≤ 0.5 := abs_le.mpr ⟨by linarith, by linarith⟩
  rw [show |(2 : ℝ)| = 2 from by norm_num, abs_of_nonneg hv]
  nlinarith [abs_nonneg (r - 0.5)]

/-- C2: if the post-physics position of a frame exceeds the respawn AABB on
any of the six bounds, that same frame's update ends with the position
within `spawnPosition ± spawnPositionVariance` on every axis, the velocity,
angular velocity and smoothed inputs exactly zero, and the drift flag
clear, for every per-axis random jitter sample in the unit interval. -/
theorem C2_respawn_correctness (cfg : KartPhysicsConfig) (spawn : SpawnConfigurationState)
    (raycast : Vec3 → Vec3 → Option (ℝ × Vec3 × Vec3)) (s : KartState)
    (input : Option KartControlInput) (dt r1 r2 r3 : ℝ)
    (hout : outsideRespawnBounds spawn.respawnTrigger
      (preRespawn cfg raycast s input dt).position)
    (hr1 : 0 ≤ r1 ∧ r1 ≤ 1) (hr2 : 0 ≤ r2 ∧ r2 ≤ 1) (hr3 : 0 ≤ r3 ∧ r3 ≤ 1)
    (hvx : 0 ≤ spawn.spawnPositionVariance.x) (hvy : 0 ≤ spawn.spawnPositionVariance.y)
    (hvz : 0 ≤ spawn.spawnPositionVariance.z) :
    |(update cfg spawn raycast s input dt r1 r2 r3).position.x - spawn.spawnPosition.x| ≤
      spawn.spawnPositionVariance.x ∧
    |(update cfg spawn raycast s input dt r1 r2 r3).position.y - spawn.spawnPosition.y| ≤
      spawn.spawnPositionVariance.y ∧
    |(update cfg spawn raycast s input dt r1 r2 r3).position.z - spawn.spawnPosition.z| ≤
      spawn.spawnPositionVariance.z ∧
    (update cfg spawn raycast s input dt r1 r2 r3).velocity = Vec3.zero ∧
    (update cfg spawn raycast s input dt r1 r2 r3).angularVelocity = 0 ∧
    (update cfg spawn raycast s input dt r1 r2 r3).throttleInput = 0 ∧
    (update cfg spawn raycast s input dt r1 r2 r3).steeringInput = 0 ∧
    ¬ (update cfg spawn raycast s input dt r1 r2 r3).isDrifting := by
  have hupd : update cfg spawn raycast s input dt r1 r2 r3 =
      resetPosition spawn (preRespawn cfg raycast s input dt) r1 r2 r3 := by
    rw [update, checkRespawnBounds, if_pos hout]
  rw [hupd]
  exact ⟨randomWithVariance_close _ _ _ hr1.1 hr1.2 hvx,
    randomWithVariance_close _ _ _ hr2.1 hr2.2 hvy,
    randomWithVariance_close _ _ _ hr3.1 hr3.2 hvz,
    rfl, rfl, rfl, rfl, not_false⟩

/-- Witness for C2: the airborne frame from the C1 study, run against a
far-away respawn AABB, triggers the respawn and lands at the jittered
spawn point with all motion state cleared. -/
theorem C2_respawn_correctness_witness :
    |(update kartConfig farSpawn noHitRaycast
        ⟨⟨0, 50, 0⟩, 0, ⟨0, -(168/5), 3421/30⟩, 0, 1, 0, False, False, False, False⟩
        (some ⟨1, 0, false⟩) (1/60) (1/2) (1/2) (1/2)).position.x -
      farSpawn.spawnPosition.x| ≤ farSpawn.spawnPositionVariance.x ∧
    |(update kartConfig farSpawn noHitRaycast
        ⟨⟨0, 50, 0⟩, 0, ⟨0, -(168/5), 3421/30⟩, 0, 1, 0, False, False, False, False⟩
        (some ⟨1, 0, false⟩) (1/60) (1/2) (1/2) (1/2)).position.y -
      farSpawn.spawnPosition.y| ≤ farSpawn.spawnPositionVariance.y ∧
    |(update kartConfig farSpawn noHitRaycast
        ⟨⟨0, 50, 0⟩, 0, ⟨0, -(168/5), 3421/30⟩, 0, 1, 0, False, False, False, False⟩
        (some ⟨1, 0, false⟩) (1/60) (1/2) (1/2) (1/2)).position.z -
      farSpawn.spawnPosition.z| ≤ farSpawn.spawnPositionVariance.z ∧
    (update kartConfig farSpawn noHitRaycast
        ⟨⟨0, 50, 0⟩, 0, ⟨0, -(168/5), 3421/30⟩, 0, 1, 0, False, False, False, False⟩
        (some ⟨1, 0, false⟩) (1/60) (1/2) (1/2) (1/2)).velocity = Vec3.zero ∧
    (update kartConfig farSpawn noHitRaycast
        ⟨⟨0, 50, 0⟩, 0, ⟨0, -(168/5), 3421/30⟩, 0, 1, 0, False, False, False, False⟩
        (some ⟨1, 0, false⟩) (1/60) (1/2) (1/2) (1/2)).angularVelocity = 0 ∧
    (update kartConfig farSpawn noHitRaycast
        ⟨⟨0, 50, 0⟩, 0, ⟨0, -(168/5), 3421/30⟩, 0, 1, 0, False, False, False, False⟩
        (some ⟨1, 0, false⟩) (1/60) (1/2) (1/2) (1/2)).throttleInput = 0 ∧
    (update kartConfig farSpawn noHitRaycast
        ⟨⟨0, 50, 0⟩, 0, ⟨0, -(168/5), 3421/30⟩, 0, 1, 0, False, False, False, False⟩
        (some ⟨1, 0, false⟩) (1/60) (1/2) (1/2) (1/2)).steeringInput = 0 ∧
    ¬ (update kartConfig farSpawn noHitRaycast
        ⟨⟨0, 50, 0⟩, 0, ⟨0, -(168/5), 3421/30⟩, 0, 1, 0, False, False, False, False⟩
        (some ⟨1, 0, false⟩) (1/60) (1/2) (1/2) (1/2)).isDrifting :=
  C2_respawn_correctness kartConfig farSpawn noHitRaycast
    ⟨⟨0, 50, 0⟩, 0, ⟨0, -(168/5), 3421/30⟩, 0, 1, 0, False, False, False, False⟩
    (some ⟨1, 0, false⟩) (1/60) (1/2) (1/2) (1/2)
    (by rw [airbornePre_eval]; simp only [outsideRespawnBounds, farSpawn]; norm_num)
    ⟨by norm_num, by norm_num⟩ ⟨by norm_num, by norm_num⟩ ⟨by norm_num, by norm_num⟩
    (by norm_num [farSpawn]) (by norm_num [farSpawn]) (by norm_num [farSpawn])

/-- C7: every replicated network state carries the constant placeholder
`state = 0` and the final frame position unchanged; for the (pure-yaw)
character rotation the replicated quaternion components satisfy
`quaternionY = sin(yaw / 2)` and `quaternionW = cos(yaw / 2)`, while the X
and Z components of that quaternion are zero. -/
theorem C7_network_state_projection (idv : ℤ) (s : KartState) :
    (updateNetworkState idv s).state = 0 ∧
    (updateNetworkState idv s).position = s.position ∧
    (updateNetworkState idv s).rotation.quaternionY = Real.sin (s.yaw / 2) ∧
    (updateNetworkState idv s).rotation.quaternionW = Real.cos (s.yaw / 2) ∧
    (setFromEulerXYZ 0 s.yaw 0).x = 0 ∧
    (setFromEulerXYZ 0 s.yaw 0).z = 0 := by
  refine ⟨rfl, rfl, ?_, ?_, ?_, ?_⟩ <;>
    simp [updateNetworkState, setFromEulerXYZ, Real.sin_zero, Real.cos_zero, zero_div]

/-- C8: when the downward ground probe misses, the ground-contact step
marks the kart airborne, lowers the vertical velocity by exactly
`9.8 * deltaTime`, and leaves the horizontal velocity and the position
untouched; no error path exists. -/
theorem C8_airborne_gravity (raycast : Vec3 → Vec3 → Option (ℝ × Vec3 × Vec3))
    (s : KartState) (dt : ℝ) (h : raycast s.position ⟨0, -1, 0⟩ = none) :
    ¬ (maintainGroundContact raycast s dt).isGrounded ∧
    (maintainGroundContact raycast s dt).velocity.y = s.velocity.y - 9.8 * dt ∧
    (maintainGroundContact raycast s dt).velocity.x = s.velocity.x ∧
    (maintainGroundContact raycast s dt).velocity.z = s.velocity.z ∧
    (maintainGroundContact raycast s dt).position = s.position := by
  simp only [maintainGroundContact, h]
  norm_num

/-- Witness for C8: a frame over an empty world. -/
theorem C8_airborne_gravity_witness :
    ¬ (maintainGroundContact noHitRaycast (coastState 0 1) (1/60)).isGrounded ∧
    (maintainGroundContact noHitRaycast (coastState 0 1) (1/60)).velocity.y =
      (coastState 0 1).velocity.y - 9.8 * (1/60) ∧
    (maintainGroundContact noHitRaycast (coastState 0 1) (1/60)).velocity.x =
      (coastState 0 1).velocity.x ∧
    (maintainGroundContact noHitRaycast (coastState 0 1) (1/60)).velocity.z =
      (coastState 0 1).velocity.z ∧
    (maintainGroundContact noHitRaycast (coastState 0 1) (1/60)).position =
      (coastState 0 1).position :=
  C8_airborne_gravity noHitRaycast (coastState 0 1) (1/60) rfl

/-- C9: with raw input present the smoothed steering moves toward the raw
steering value, or toward its negation while `isReversing` holds; one frame
shrinks the distance to that target by exactly `12 * deltaTime`, stopping
at zero. -/
theorem C9_reverse_steering_target (s : KartState) (input : KartControlInput) (dt : ℝ)
    (hdt : 0 ≤ dt) :
    (processInput s input dt).steeringInput =
      smoothInput s.steeringInput
        (if s.isReversing then -input.steering else input.steering) (12 * dt) ∧
    |(processInput s input dt).steeringInput -
        (if s.isReversing then -input.steering else input.steering)| =
      max (|s.steeringInput -
        (if s.isReversing then -input.steering else input.steering)| - 12 * dt) 0 :=
  ⟨rfl, smoothInput_dist _ _ _ (by linarith)⟩

/-- Witness for C9: a coasting kart receiving a full-steer sample. -/
theorem C9_reverse_steering_target_witness :
    (processInput (coastState 0 1) ⟨0, 1, false⟩ (1/60)).steeringInput =
      smoothInput (coastState 0 1).steeringInput
        (if (coastState 0 1).isReversing then -(1 : ℝ) else 1) (12 * (1/60)) ∧
    |(processInput (coastState 0 1) ⟨0, 1, false⟩ (1/60)).steeringInput -
        (if (coastState 0 1).isReversing then -(1 : ℝ) else 1)| =
      max (|(coastState 0 1).steeringInput -
        (if (coastState 0 1).isReversing then -(1 : ℝ) else 1)| - 12 * (1/60)) 0 :=
  C9_reverse_steering_target (coastState 0 1) ⟨0, 1, false⟩ (1/60) (by norm_num)

/-- C10: a respawn reset overwrites exactly the position (to the jittered
spawn point), velocity, angular velocity, smoothed throttle and steering,
and the drift flag, and leaves the yaw, reversing, skidding and grounded
flags unchanged. -/
theorem C10_reset_preserves_flags (spawn : SpawnConfigurationState) (s : KartState)
    (r1 r2 r3 : ℝ) :
    (resetPosition spawn s r1 r2 r3).yaw = s.yaw ∧
    (resetPosition spawn s r1 r2 r3).isReversing = s.isReversing ∧
    (resetPosition spawn s r1 r2 r3).isSkidding = s.isSkidding ∧
    (resetPosition spawn s r1 r2 r3).isGrounded = s.isGrounded ∧
    (resetPosition spawn s r1 r2 r3).velocity = Vec3.zero ∧
    (resetPosition spawn s r1 r2 r3).angularVelocity = 0 ∧
    (resetPosition spawn s r1 r2 r3).throttleInput = 0 ∧
    (resetPosition spawn s r1 r2 r3).steeringInput = 0 ∧
    (resetPosition spawn s r1 r2 r3).isDrifting = False ∧
    (resetPosition spawn s r1 r2 r3).position =
      ⟨randomWithVariance spawn.spawnPosition.x spawn.spawnPositionVariance.x r1,
       randomWithVariance spawn.spawnPosition.y spawn.spawnPositionVariance.y r2,
       randomWithVariance spawn.spawnPosition.z spawn.spawnPositionVariance.z r3⟩ :=
  ⟨rfl, rfl, rfl, rfl, rfl, rfl, rfl, rfl, rfl, rfl⟩

/-- The resistance phase preserves the reversing flag. -/
theorem applyResistance_isReversing (cfg : KartPhysicsConfig) (s : KartState) (dt : ℝ) :
    (applyResistance cfg s dt).isReversing = s.isReversing := rfl

/-- The drift phase preserves the reversing flag. -/
theorem processDrift_isReversing (s : KartState) (dt : ℝ) :
    (processDrift s dt).isReversing = s.isReversing := by
  simp only [processDrift]
  split_ifs <;> rfl

/-- The angular phase preserves the reversing flag. -/
theorem updateAngularVelocity_isReversing (cfg : KartPhysicsConfig) (s : KartState) (dt : ℝ) :
    (updateAngularVelocity cfg s dt).isReversing = s.isReversing := rfl

/-- Exact characterisation of the reversing flag after the linear-velocity
phase: it holds afterwards exactly when the smoothed throttle is below
-0.1 and either it held before or the speed entering the phase was below
2. -/
theorem updateLinearVelocity_isReversing_iff (cfg : KartPhysicsConfig) (s : KartState)
    (dt : ℝ) :
    ((updateLinearVelocity cfg s dt).isReversing ↔
      (s.throttleInput < -0.1 ∧ (s.isReversing ∨ s.velocity.length < 2))) := by
  simp only [updateLinearVelocity, apply_ite (KartState.isReversing), ite_self]
  split_ifs with h1 h2 h3
  · exact iff_of_false (fun h => h) (fun hr => by linarith [hr.1])
  · constructor
    · intro hrev
      refine ⟨h3.2, ?_⟩
      rcases h3.1 with h | h
      · exact Or.inl h
      · exact Or.inr h.1
    · intro _
      exact h3.1
  · refine iff_of_false (fun h => h) ?_
    rintro ⟨hthr, hor⟩
    refine h3 ⟨?_, hthr⟩
    rcases hor with h | h
    · exact Or.inl h
    · exact Or.inr ⟨h, hthr⟩
  · refine iff_of_false (fun h => h) ?_
    rintro ⟨hthr, _⟩
    exact h1 (by rw [abs_of_neg (by linarith : s.throttleInput < 0)]; linarith)

/-- Exact characterisation of the reversing flag after a whole frame
update, in terms of the frame's smoothed throttle and the incoming state. -/
theorem update_isReversing_iff (spawn : SpawnConfigurationState)
    (raycast : Vec3 → Vec3 → Option (ℝ × Vec3 × Vec3)) (s : KartState)
    (input : Option KartControlInput) (dt r1 r2 r3 : ℝ) :
    ((update kartConfig spawn raycast s input dt r1 r2 r3).isReversing ↔
      ((inputPhase s input dt).throttleInput < -0.1 ∧
        (s.isReversing ∨ s.velocity.length < 2))) := by
  simp only [update, preRespawn, updateKartPhysics]
  rw [checkRespawnBounds_isReversing, maintainGroundContact_isReversing,
    updateSkiddingState_isReversing, updateCharacterTransform_isReversing,
    processDrift_isReversing, applyResistance_isReversing,
    updateAngularVelocity_isReversing, updateLinearVelocity_isReversing_iff,
    inputPhase_isReversing, inputPhase_velocity]

/-- C4 (amended): after a frame update the reversing flag holds exactly
when the frame's smoothed throttle is below the -0.1 reverse threshold and
either the flag already held or the speed entering the integration was
below 2.0.  In particular the flag engages exactly under the claimed entry
condition, but it is reset whenever the smoothed throttle rises to -0.1 or
above, even while that throttle is still negative — the claim's
"persists while the smoothed throttle input is still negative" is the part
that fails (see the counterexample). -/
theorem C4_amended_reversing_rule (spawn : SpawnConfigurationState)
    (raycast : Vec3 → Vec3 → Option (ℝ × Vec3 × Vec3)) (s : KartState)
    (input : Option KartControlInput) (dt r1 r2 r3 : ℝ) :
    ((update kartConfig spawn raycast s input dt r1 r2 r3).isReversing ↔
      ((inputPhase s input dt).throttleInput < -0.1 ∧
        (s.isReversing ∨ s.velocity.length < 2))) :=
  update_isReversing_iff spawn raycast s input dt r1 r2 r3

/-- C4 fails as frozen: a reversing kart holding a slightly negative
throttle (raw and smoothed both -0.05, so the input is neither released
nor non-negative) loses its reversing flag in one frame update, because
the code's persistence test requires the throttle to stay below -0.1
rather than merely negative. -/
theorem C4_counterexample :
    (inputPhase
        ⟨⟨0, 1 / 4, 0⟩, 0, ⟨0, 0, 1⟩, 0, -(1/20), 0, False, True, True, False⟩
        (some ⟨-(1/20), 0, false⟩) (1/60)).throttleInput < 0 ∧
    (⟨⟨0, 1 / 4, 0⟩, 0, ⟨0, 0, 1⟩, 0, -(1/20), 0, False, True, True, False⟩ :
      KartState).isReversing ∧
    ¬ (update kartConfig wideSpawn planeRaycast
        ⟨⟨0, 1 / 4, 0⟩, 0, ⟨0, 0, 1⟩, 0, -(1/20), 0, False, True, True, False⟩
        (some ⟨-(1/20), 0, false⟩) (1/60) (1/2) (1/2) (1/2)).isReversing := by
  have hthr : (inputPhase
      ⟨⟨0, 1 / 4, 0⟩, 0, ⟨0, 0, 1⟩, 0, -(1/20), 0, False, True, True, False⟩
      (some ⟨-(1/20), 0, false⟩) (1/60)).throttleInput = -(1/20) := by
    simp only [inputPhase, processInput]
    exact smoothInput_same _ _
  refine ⟨by rw [hthr]; norm_num, trivial, ?_⟩
  rw [update_isReversing_iff]
  rintro ⟨habs, -⟩
  rw [hthr] at habs
  norm_num at habs

/-- With the throttle inside the dead zone the linear phase leaves the
velocity unchanged. -/
theorem updateLinearVelocity_velocity_small (cfg : KartPhysicsConfig) (s : KartState)
    (dt : ℝ) (h : ¬ (0.01 : ℝ) < |s.throttleInput|) :
    (updateLinearVelocity cfg s dt).velocity = s.velocity := by
  simp only [updateLinearVelocity, if_neg h]

/-- The linear phase never touches the angular velocity. -/
theorem updateLinearVelocity_angularVelocity (cfg : KartPhysicsConfig) (s : KartState)
    (dt : ℝ) : (updateLinearVelocity cfg s dt).angularVelocity = s.angularVelocity := by
  simp only [updateLinearVelocity]
  split_ifs <;> rfl

/-- The linear phase never touches the smoothed throttle. -/
theorem updateLinearVelocity_throttleInput (cfg : KartPhysicsConfig) (s : KartState)
    (dt : ℝ) : (updateLinearVelocity cfg s dt).throttleInput = s.throttleInput := by
  simp only [updateLinearVelocity]
  split_ifs <;> rfl

/-- The linear phase never touches the drift flag. -/
theorem updateLinearVelocity_isDrifting (cfg : KartPhysicsConfig) (s : KartState)
    (dt : ℝ) : (updateLinearVelocity cfg s dt).isDrifting = s.isDrifting := by
  simp only [updateLinearVelocity]
  split_ifs <;> rfl

/-- The linear phase never touches the grounded flag. -/
theorem updateLinearVelocity_isGrounded (cfg : KartPhysicsConfig) (s : KartState)
    (dt : ℝ) : (updateLinearVelocity cfg s dt).isGrounded = s.isGrounded := by
  simp only [updateLinearVelocity]
  split_ifs <;> rfl

/-- A stationary kart gains no angular velocity from the angular phase. -/
theorem updateAngularVelocity_of_stationary (cfg : KartPhysicsConfig) (s : KartState)
    (dt : ℝ) (hv : s.velocity = Vec3.zero) (ha : s.angularVelocity = 0) :
    (updateAngularVelocity cfg s dt).angularVelocity = 0 := by
  simp only [updateAngularVelocity, hv, Vec3.length_zero_vec, ha]
  norm_num

/-- A zero velocity is fixed by the resistance phase. -/
theorem applyResistance_velocity_zero (cfg : KartPhysicsConfig) (s : KartState) (dt : ℝ)
    (hv : s.velocity = Vec3.zero) :
    (applyResistance cfg s dt).velocity = Vec3.zero := by
  simp only [applyResistance, hv, normalize_zero_vec, smul_zero_vec]
  split_ifs <;>
    norm_num [Vec3.add, Vec3.zero, Vec3.smul, smul_zero_vec, Vec3.mk.injEq]

/-- A state with zero velocity is fixed by the drift phase. -/
theorem processDrift_of_zero (s : KartState) (dt : ℝ) (hv : s.velocity = Vec3.zero) :
    processDrift s dt = s := by
  simp only [processDrift, hv, Vec3.length_zero_vec]
  norm_num

/-- Below the 0.1 speed floor the collision response changes only the
position. -/
theorem applyCollisionResponse_slow (cfg : KartPhysicsConfig) (s : KartState)
    (cols : List CollisionSample) (h : s.velocity.length < 0.1) :
    (applyCollisionResponse cfg s cols).angularVelocity = s.angularVelocity ∧
    (applyCollisionResponse cfg s cols).velocity = s.velocity := by
  cases cols with
  | nil => exact ⟨rfl, rfl⟩
  | cons c rest =>
      simp only [applyCollisionResponse, handleVelocityCollisionResponse]
      rw [if_pos (by exact h)]
      exact ⟨rfl, rfl⟩

/-- The skid detector never touches the angular velocity. -/
theorem updateSkiddingState_angularVelocity (s : KartState) :
    (updateSkiddingState s).angularVelocity = s.angularVelocity := by
  simp only [updateSkiddingState]
  split_ifs <;> rfl

/-- The ground-contact step never touches the angular velocity. -/
theorem maintainGroundContact_angularVelocity
    (raycast : Vec3 → Vec3 → Option (ℝ × Vec3 × Vec3)) (s : KartState) (dt : ℝ) :
    (maintainGroundContact raycast s dt).angularVelocity = s.angularVelocity := by
  rcases h : raycast s.position ⟨0, -1, 0⟩ with _ | ⟨d, n, p⟩ <;>
    simp only [maintainGroundContact, h]

/-- The respawn check keeps a zero angular velocity at zero. -/
theorem checkRespawnBounds_angularVelocity_zero (spawn : SpawnConfigurationState)
    (s : KartState) (r1 r2 r3 : ℝ) (h : s.angularVelocity = 0) :
    (checkRespawnBounds spawn s r1 r2 r3).angularVelocity = 0 := by
  simp only [checkRespawnBounds]
  split_ifs <;> [rfl; exact h]

/-- C5: a kart with zero velocity and zero angular velocity that receives
a pure steering sample (any steering value, zero throttle) still has zero
angular velocity after the whole frame update — it cannot begin to spin in
place, whatever the world geometry, frame step and random samples. -/
theorem C5_no_spin_in_place (spawn : SpawnConfigurationState)
    (raycast : Vec3 → Vec3 → Option (ℝ × Vec3 × Vec3)) (s : KartState)
    (st : ℝ) (dr : Bool) (dt r1 r2 r3 : ℝ)
    (hv : s.velocity = Vec3.zero) (ha : s.angularVelocity = 0)
    (ht : s.throttleInput = 0) :
    (update kartConfig spawn raycast s (some ⟨0, st, dr⟩) dt r1 r2 r3).angularVelocity
      = 0 := by
  simp only [update, preRespawn, updateKartPhysics, inputPhase]
  set s1 := processInput s ⟨0, st, dr⟩ dt with hs1
  have h1v : s1.velocity = Vec3.zero := hv
  have h1a : s1.angularVelocity = 0 := ha
  have h1t : s1.throttleInput = 0 := by
    rw [hs1]
    show smoothInput s.throttleInput 0 (8 * dt) = 0
    rw [ht]
    exact smoothInput_same 0 (8 * dt)
  have h1small : ¬ (0.01 : ℝ) < |s1.throttleInput| := by rw [h1t]; norm_num
  set s2 := updateLinearVelocity kartConfig s1 dt with hs2
  have h2v : s2.velocity = Vec3.zero := by
    rw [hs2, updateLinearVelocity_velocity_small kartConfig s1 dt h1small, h1v]
  have h2a : s2.angularVelocity = 0 := by
    rw [hs2, updateLinearVelocity_angularVelocity, h1a]
  set s3 := updateAngularVelocity kartConfig s2 dt with hs3
  have h3v : s3.velocity = Vec3.zero := h2v
  have h3a : s3.angularVelocity = 0 := by
    rw [hs3]
    exact updateAngularVelocity_of_stationary kartConfig s2 dt h2v h2a
  set s4 := applyResistance kartConfig s3 dt with hs4
  have h4v : s4.velocity = Vec3.zero := by
    rw [hs4]
    exact applyResistance_velocity_zero kartConfig s3 dt h3v
  have h4a : s4.angularVelocity = 0 := h3a
  have h5eq : processDrift s4 dt = s4 := processDrift_of_zero s4 dt h4v
  rw [h5eq]
  set s6 := updateCharacterTransform kartConfig raycast s4 dt with hs6
  have h6 : s6.angularVelocity = 0 ∧ s6.velocity = Vec3.zero := by
    rw [hs6]
    simp only [updateCharacterTransform]
    have hslow : (({ s4 with position := s4.position.add (s4.velocity.smul dt) }
        : KartState).velocity).length < 0.1 := by
      show s4.velocity.length < 0.1
      rw [h4v, Vec3.length_zero_vec]
      norm_num
    obtain ⟨hca, hcv⟩ := applyCollisionResponse_slow kartConfig _
      (performCollisionChecks raycast
        ({ s4 with position := s4.position.add (s4.velocity.smul dt) }
          : KartState).position
        ({ s4 with position := s4.position.add (s4.velocity.smul dt) } : KartState).yaw)
      hslow
    constructor
    · rw [hca]; exact h4a
    · rw [hcv]; exact h4v
  set s7 := updateSkiddingState s6 with hs7
  have h7a : s7.angularVelocity = 0 := by
    rw [hs7, updateSkiddingState_angularVelocity]; exact h6.1
  set s8 := maintainGroundContact raycast s7 dt with hs8
  have h8a : s8.angularVelocity = 0 := by
    rw [hs8, maintainGroundContact_angularVelocity]; exact h7a
  exact checkRespawnBounds_angularVelocity_zero spawn s8 r1 r2 r3 h8a

/-- Witness for C5: a stationary kart receiving a full-steer sample over
the flat ground plane. -/
theorem C5_no_spin_in_place_witness :
    (update kartConfig wideSpawn planeRaycast
      ⟨⟨0, 1 / 4, 0⟩, 0, Vec3.zero, 0, 0, 0, False, False, True, False⟩
      (some ⟨0, 1, false⟩) (1/60) (1/2) (1/2) (1/2)).angularVelocity = 0 :=
  C5_no_spin_in_place wideSpawn planeRaycast
    ⟨⟨0, 1 / 4, 0⟩, 0, Vec3.zero, 0, 0, 0, False, False, True, False⟩
    1 false (1/60) (1/2) (1/2) (1/2) rfl rfl rfl

/-- Projection onto a unit vector is the dot-product multiple. -/
theorem projectOnVector_unit (v n : Vec3) (h : n.lengthSq = 1) :
    v.projectOnVector n = n.smul (n.dot v) := by
  rw [Vec3.projectOnVector, if_neg (by rw [h]; norm_num), h, div_one]

/-- C6: with at least one recorded collision sample whose normals do not
cancel, and pre-collision speed at least 0.1, the post-collision velocity
is exactly the spec's bounce formula — the projection of the velocity on
the averaged unit normal scaled by minus the restitution, plus the
tangential remainder scaled by 0.7 — hard-clamped to `maxSpeed * 0.8`; in
particular its magnitude never exceeds `maxSpeed * 0.8`. -/
theorem C6_collision_velocity_response (s : KartState) (c : CollisionSample)
    (rest : List CollisionSample)
    (hsum : sumNormals (c :: rest) ≠ Vec3.zero)
    (hspeed : 0.1 ≤ s.velocity.length) :
    (applyCollisionResponse kartConfig s (c :: rest)).velocity =
      specClamp (kartConfig.maxSpeed * 0.8)
        (specBounceVelocity kartConfig s.velocity (avgUnitNormal (c :: rest))) ∧
    (applyCollisionResponse kartConfig s (c :: rest)).velocity.length ≤
      kartConfig.maxSpeed * 0.8 := by
  have hlen_pos : (0 : ℝ) < ((c :: rest : List CollisionSample).length : ℝ) := by
    exact_mod_cast Nat.succ_pos rest.length
  have hinv_ne : (1 : ℝ) / ((c :: rest : List CollisionSample).length : ℝ) ≠ 0 :=
    one_div_ne_zero (ne_of_gt hlen_pos)
  have hsm_ne : (sumNormals (c :: rest)).smul
      (1 / ((c :: rest : List CollisionSample).length : ℝ)) ≠ Vec3.zero := by
    intro h0
    apply hsum
    have hlen := congrArg Vec3.length h0
    rw [Vec3.length_smul, Vec3.length_zero_vec] at hlen
    have habs : |1 / ((c :: rest : List CollisionSample).length : ℝ)| ≠ 0 :=
      abs_ne_zero.mpr hinv_ne
    rcases mul_eq_zero.mp hlen with h | h
    · exact absurd h habs
    · exact Vec3.length_eq_zero_iff.mp h
  have hunit : (avgUnitNormal (c :: rest)).lengthSq = 1 := by
    rw [avgUnitNormal]
    exact Vec3.lengthSq_normalize hsm_ne
  simp only [applyCollisionResponse, handleVelocityCollisionResponse]
  rw [if_neg (not_lt.mpr hspeed),
    show ((sumNormals (c :: rest)).smul
      (1 / ((c :: rest : List CollisionSample).length : ℝ))).normalize =
      avgUnitNormal (c :: rest) from rfl,
    projectOnVector_unit _ _ hunit]
  constructor
  · simp only [specClamp, specBounceVelocity, kartConfig]
  · exact clamp_length_le _ _ (by norm_num [kartConfig])

/-- Witness for C6: a kart moving at speed 10 into a single head-on wall
sample. -/
theorem C6_collision_velocity_response_witness :
    (applyCollisionResponse kartConfig
        ⟨⟨0, 1 / 4, 0⟩, 0, ⟨0, 0, 10⟩, 0, 0, 0, False, False, True, False⟩
        (⟨⟨0, 0, -1⟩, 1 / 2, ⟨0, 0, 0⟩⟩ :: [])).velocity =
      specClamp (kartConfig.maxSpeed * 0.8)
        (specBounceVelocity kartConfig
          (⟨0, 0, 10⟩ : Vec3)
          (avgUnitNormal (⟨⟨0, 0, -1⟩, 1 / 2, ⟨0, 0, 0⟩⟩ :: []))) ∧
    (applyCollisionResponse kartConfig
        ⟨⟨0, 1 / 4, 0⟩, 0, ⟨0, 0, 10⟩, 0, 0, 0, False, False, True, False⟩
        (⟨⟨0, 0, -1⟩, 1 / 2, ⟨0, 0, 0⟩⟩ :: [])).velocity.length ≤
      kartConfig.maxSpeed * 0.8 :=
  C6_collision_velocity_response
    ⟨⟨0, 1 / 4, 0⟩, 0, ⟨0, 0, 10⟩, 0, 0, 0, False, False, True, False⟩
    ⟨⟨0, 0, -1⟩, 1 / 2, ⟨0, 0, 0⟩⟩ []
    (by norm_num [sumNormals, Vec3.add, Vec3.zero, Vec3.mk.injEq])
    (by
      rw [show (⟨⟨0, 1 / 4, 0⟩, 0, ⟨0, 0, 10⟩, 0, 0, 0, False, False, True, False⟩ :
          KartState).velocity = (⟨0, 0, 10⟩ : Vec3) from rfl,
        Vec3.length_eq_of_sq (by norm_num : (0:ℝ) ≤ 10) (by norm_num [Vec3.lengthSq])]
      norm_num)

/-- Normalisation preserves a vanishing y component. -/
theorem normalize_y_zero (v : Vec3) (h : v.y = 0) : v.normalize.y = 0 := by
  rw [Vec3.normalize]
  split_ifs
  · exact h
  · simp [Vec3.smul, h]

/-- Over the flat ground plane the perimeter probes record no samples:
every probe ray is horizontal. -/
theorem performCollisionChecks_plane (p : Vec3) (yaw : ℝ) :
    performCollisionChecks planeRaycast p yaw = [] := by
  have hfy : (forwardDir yaw).y = 0 := rfl
  have hny : (forwardDir yaw).neg.y = 0 := by simp [Vec3.neg, forwardDir]
  have hry : ((forwardDir yaw).cross ⟨0, 1, 0⟩).normalize.y = 0 := by
    apply normalize_y_zero
    simp [Vec3.cross, forwardDir]
  have hrny : ((forwardDir yaw).cross ⟨0, 1, 0⟩).normalize.neg.y = 0 := by
    simp [Vec3.neg, hry]
  simp [performCollisionChecks, planeRaycast, hfy, hny, hry, hrny]

/-- One coasting frame over the flat ground plane, up to the respawn
check: the smoothed state is unchanged, the speed shrinks by the coasting
decay factor, and the kart advances along +Z. -/
theorem coastPre_eval (zp z : ℝ) (hz0 : 0 < z) (hz1 : z ≤ 1) :
    preRespawn kartConfig planeRaycast (coastState zp z) none (1 / 60) =
      coastState (zp + coastDecayFactor * z / 60) (coastDecayFactor * z) := by
  have hcz0 : 0 < coastDecayFactor * z := by
    have : (0 : ℝ) < coastDecayFactor := by norm_num [coastDecayFactor]
    exact mul_pos this hz0
  have hlen1 : (⟨0, 0, z⟩ : Vec3).length = z :=
    Vec3.length_eq_of_sq (le_of_lt hz0) (by norm_num [Vec3.lengthSq])
  have hlen2 : (⟨0, 0, coastDecayFactor * z⟩ : Vec3).length = coastDecayFactor * z :=
    Vec3.length_eq_of_sq (le_of_lt hcz0) (by norm_num [Vec3.lengthSq])
  have hnorm : (⟨0, 0, z⟩ : Vec3).normalize = ⟨0, 0, 1⟩ := by
    rw [Vec3.normalize, if_neg (by rw [hlen1]; exact ne_of_gt hz0), hlen1]
    simp [Vec3.smul, Vec3.mk.injEq]
    field_simp
  have hlt3 : coastDecayFactor * z < 3 := by
    have hc1 : coastDecayFactor ≤ 1 := by norm_num [coastDecayFactor]
    nlinarith
  have h1 : applyInputDecay (coastState zp z) (1 / 60) = coastState zp z := by
    simp only [applyInputDecay, coastState]
    norm_num [smoothInput_same, KartState.mk.injEq]
  have h2 : updateLinearVelocity kartConfig (coastState zp z) (1 / 60) = coastState zp z := by
    simp only [updateLinearVelocity, coastState]
    norm_num [KartState.mk.injEq, eq_iff_iff]
  have h3 : updateAngularVelocity kartConfig (coastState zp z) (1 / 60) = coastState zp z := by
    simp only [updateAngularVelocity, coastState]
    norm_num [KartState.mk.injEq, eq_iff_iff]
  have h4 : applyResistance kartConfig (coastState zp z) (1 / 60) =
      coastState zp (coastDecayFactor * z) := by
    simp only [applyResistance, kartConfig, coastState, hlen1, hnorm]
    norm_num [Vec3.add, Vec3.smul, KartState.mk.injEq, coastDecayFactor]
    ring
  have h5 : processDrift (coastState zp (coastDecayFactor * z)) (1 / 60) =
      coastState zp (coastDecayFactor * z) := by
    have hT : Vec3.smul (coastDecayFactor * z) (forwardDir 0) =
        (⟨0, 0, coastDecayFactor * z⟩ : Vec3) := by
      norm_num [forwardDir, Vec3.smul, Vec3.mk.injEq]
    simp [processDrift, coastState, hlen2, hT, Vec3.lerp_self, ite_self]
  have h6 : updateCharacterTransform kartConfig planeRaycast
      (coastState zp (coastDecayFactor * z)) (1 / 60) =
      coastState (zp + coastDecayFactor * z / 60) (coastDecayFactor * z) := by
    simp only [updateCharacterTransform, performCollisionChecks_plane,
      applyCollisionResponse, coastState]
    norm_num [Vec3.add, Vec3.smul, KartState.mk.injEq]
    ring
  have h7 : updateSkiddingState (coastState (zp + coastDecayFactor * z / 60)
      (coastDecayFactor * z)) =
      coastState (zp + coastDecayFactor * z / 60) (coastDecayFactor * z) := by
    simp [updateSkiddingState, coastState, hlen2, hlt3]
  have h8 : maintainGroundContact planeRaycast
      (coastState (zp + coastDecayFactor * z / 60) (coastDecayFactor * z)) (1 / 60) =
      coastState (zp + coastDecayFactor * z / 60) (coastDecayFactor * z) := by
    simp only [maintainGroundContact, planeRaycast, coastState]
    norm_num [KartState.mk.injEq, eq_iff_iff]
  simp only [preRespawn, updateKartPhysics, inputPhase]
  rw [h1, h2, h3, h4, h5, h6, h7, h8]

/-- One full coasting frame over the flat ground plane, including the
(untriggered) respawn check. -/
theorem coast_step (zp z : ℝ) (hz0 : 0 < z) (hz1 : z ≤ 1)
    (hzp0 : 0 ≤ zp) (hzp4 : zp ≤ 4) :
    update kartConfig wideSpawn planeRaycast (coastState zp z) none (1 / 60)
      (1 / 2) (1 / 2) (1 / 2) =
    coastState (zp + coastDecayFactor * z / 60) (coastDecayFactor * z) := by
  have hc0 : (0 : ℝ) < coastDecayFactor := by norm_num [coastDecayFactor]
  have hc1 : coastDecayFactor ≤ 1 := by norm_num [coastDecayFactor]
  rw [update, coastPre_eval zp z hz0 hz1, checkRespawnBounds, if_neg]
  simp only [outsideRespawnBounds, wideSpawn, coastState]
  push_neg
  refine ⟨by norm_num, by norm_num, by norm_num, by norm_num, by nlinarith, by nlinarith⟩

/-- Closed form of the coasting trajectory: after `n` frames the kart is a
coasting state with speed `coastDecayFactor ^ n`, and the conserved
quantity `zp + coastBeta * speed` keeps the position bounded. -/
theorem coastIter_eval (n : ℕ) : ∃ zp, coastIter n = coastState zp (coastDecayFactor ^ n) ∧
    0 ≤ zp ∧ zp + coastBeta * coastDecayFactor ^ n ≤ coastBeta := by
  have hc0 : (0 : ℝ) < coastDecayFactor := by norm_num [coastDecayFactor]
  have hc1 : coastDecayFactor ≤ 1 := by norm_num [coastDecayFactor]
  have hb0 : (0 : ℝ) < coastBeta := by norm_num [coastBeta]
  have key : coastDecayFactor / 60 + coastBeta * coastDecayFactor = coastBeta := by
    norm_num [coastDecayFactor, coastBeta]
  induction n with
  | zero =>
      refine ⟨0, ?_, le_refl 0, ?_⟩
      · rw [pow_zero]
        rfl
      · rw [pow_zero]
        norm_num
  | succ n ih =>
      obtain ⟨zp, heq, h0, hcons⟩ := ih
      have hzn0 : 0 < coastDecayFactor ^ n := pow_pos hc0 n
      have hzn1 : coastDecayFactor ^ n ≤ 1 := pow_le_one₀ (le_of_lt hc0) hc1
      have hzp4 : zp ≤ 4 := by
        have : coastBeta ≤ 4 := by norm_num [coastBeta]
        nlinarith
      refine ⟨zp + coastDecayFactor * coastDecayFactor ^ n / 60, ?_, ?_, ?_⟩
      · rw [show coastIter (n + 1) = update kartConfig wideSpawn planeRaycast
          (coastIter n) none (1 / 60) (1 / 2) (1 / 2) (1 / 2) from rfl, heq,
          coast_step zp _ hzn0 hzn1 h0 hzp4, pow_succ, mul_comm (coastDecayFactor ^ n)]
      · have : 0 ≤ coastDecayFactor * coastDecayFactor ^ n / 60 := by positivity
        linarith
      · rw [pow_succ]
        have heq2 : zp + coastDecayFactor * coastDecayFactor ^ n / 60 +
            coastBeta * (coastDecayFactor ^ n * coastDecayFactor) =
            zp + coastBeta * coastDecayFactor ^ n := by
          linear_combination coastDecayFactor ^ n * key
        linarith [heq2.le, heq2.ge]

/-- C3 fails as frozen: starting from the grounded coasting state with
nonzero velocity `(0, 0, 1)` over flat ground and applying frame updates
with no raw input forever, the speed never reaches exactly zero at any
frame — the coasting decay is a multiplicative shrink, so the claimed
"until it reaches exactly zero" moment does not exist. -/
theorem C3_counterexample :
    (coastIter 0).velocity ≠ Vec3.zero ∧
    (coastIter 0).isGrounded ∧
    ∀ n : ℕ, (coastIter n).velocity.length ≠ 0 := by
  have hc0 : (0 : ℝ) < coastDecayFactor := by norm_num [coastDecayFactor]
  refine ⟨?_, ?_, ?_⟩
  · rw [show coastIter 0 = coastState 0 1 from rfl]
    simp [coastState, Vec3.zero, Vec3.mk.injEq]
  · rw [show coastIter 0 = coastState 0 1 from rfl]
    trivial
  · intro n
    obtain ⟨zp, heq, -, -⟩ := coastIter_eval n
    rw [heq, show (coastState zp (coastDecayFactor ^ n)).velocity =
      (⟨0, 0, coastDecayFactor ^ n⟩ : Vec3) from rfl,
      Vec3.length_eq_of_sq (le_of_lt (pow_pos hc0 n)) (by norm_num [Vec3.lengthSq])]
    exact ne_of_gt (pow_pos hc0 n)

/-- With zero throttle and nonzero velocity the resistance phase is a pure
multiplicative shrink: the air factor, times the coasting friction when
grounded. -/
theorem applyResistance_coast (s : KartState) (dt : ℝ)
    (hthr : s.throttleInput = 0) (hvz : s.velocity ≠ Vec3.zero) :
    (applyResistance kartConfig s dt).velocity =
      if s.isGrounded then (s.velocity.smul (1 - 0.008 * dt)).smul 0.995
      else s.velocity.smul (1 - 0.008 * dt) := by
  have hair : s.velocity.add
      (s.velocity.normalize.smul (-(s.velocity.length * 0.008 * 1.0) * dt)) =
      s.velocity.smul (1 - 0.008 * dt) := by
    rw [air_velocity_eq s.velocity hvz 1.0 dt,
      show (1 : ℝ) - 0.008 * 1.0 * dt = 1 - 0.008 * dt from by ring]
  simp only [applyResistance, kartConfig, hthr]
  rw [if_neg (show ¬ (0 : ℝ) < -0.1 from by norm_num),
    if_pos (show |(0 : ℝ)| < 0.01 from by norm_num), hair]

/-- With drift off and no braking, one drift-phase step keeps the speed
between `(1 - 3 dt)` times and one times its value. -/
theorem processDrift_length_bounds (s : KartState) (dt : ℝ)
    (hnd : ¬ s.isDrifting) (hnb : ¬ s.throttleInput < -0.1)
    (hdt0 : 0 ≤ dt) (hdt1 : dt ≤ 1 / 4) :
    (1 - 3 * dt) * s.velocity.length ≤ (processDrift s dt).velocity.length ∧
    (processDrift s dt).velocity.length ≤ s.velocity.length := by
  have hupper := processDrift_length_le s dt hdt0 hdt1
  refine ⟨?_, hupper⟩
  have hL0 : 0 ≤ s.velocity.length := Vec3.length_nonneg s.velocity
  simp only [processDrift, if_neg hnd, if_neg hnb]
  simp only [apply_ite (KartState.velocity), apply_ite (Vec3.length)]
  split_ifs with hsp
  · set L := s.velocity.length with hLdef
    set a : ℝ := 1.5 * dt * (1 - (L / 40 ⊓ 1) * 0.8) with ha
    have hsf0 : 0 ≤ L / 40 ⊓ 1 := le_min (div_nonneg hL0 (by norm_num)) zero_le_one
    have hsf1 : L / 40 ⊓ 1 ≤ 1 := min_le_right _ _
    have ha0 : 0 ≤ a := by
      rw [ha]
      have h1 : 0 ≤ 1 - (L / 40 ⊓ 1) * 0.8 := by nlinarith
      have h2 : 0 ≤ 1.5 * dt := by linarith
      exact mul_nonneg h2 h1
    have haub : a ≤ 1.5 * dt := by
      rw [ha]
      have h1 : 1 - (L / 40 ⊓ 1) * 0.8 ≤ 1 := by nlinarith
      nlinarith
    rw [Vec3.lerp_eq]
    have h1 : (Vec3.smul (1 - a) s.velocity).length = (1 - a) * L := by
      rw [Vec3.length_smul, abs_of_nonneg (by nlinarith : (0 : ℝ) ≤ 1 - a)]
    have h2 : (Vec3.smul a (Vec3.smul L (forwardDir s.yaw))).length = a * L := by
      rw [Vec3.length_smul, Vec3.length_smul, forwardDir_length, mul_one,
        abs_of_nonneg ha0, abs_of_nonneg hL0]
    have hrev := Vec3.sub_length_le (Vec3.smul (1 - a) s.velocity)
      (Vec3.smul a (Vec3.smul L (forwardDir s.yaw)))
    rw [h1, h2] at hrev
    nlinarith [hrev]
  · nlinarith

/-- Without recorded collision samples the transform phase only moves the
position. -/
theorem updateCharacterTransform_velocity_nocol (cfg : KartPhysicsConfig)
    (raycast : Vec3 → Vec3 → Option (ℝ × Vec3 × Vec3)) (s : KartState) (dt : ℝ)
    (h : performCollisionChecks raycast (s.position.add (s.velocity.smul dt)) s.yaw = []) :
    (updateCharacterTransform cfg raycast s dt).velocity = s.velocity := by
  simp only [updateCharacterTransform]
  have h' : performCollisionChecks raycast
      (({ s with position := s.position.add (s.velocity.smul dt) } : KartState).position)
      (({ s with position := s.position.add (s.velocity.smul dt) } : KartState).yaw) = [] := h
  rw [h']
  rfl

/-- The decay phase zeroes nothing abruptly: with both smoothed inputs
already at zero it is the identity on them and clears the drift flag. -/
theorem applyInputDecay_zero (s : KartState) (dt : ℝ)
    (hthr : s.throttleInput = 0) (hst : s.steeringInput = 0) :
    (applyInputDecay s dt).throttleInput = 0 ∧
    (applyInputDecay s dt).steeringInput = 0 := by
  constructor
  · show smoothInput s.throttleInput 0 (3 * dt) = 0
    rw [hthr]; exact smoothInput_same 0 (3 * dt)
  · show smoothInput s.steeringInput 0 (3 * dt) = 0
    rw [hst]; exact smoothInput_same 0 (3 * dt)

/-- C3 (amended): once the smoothed inputs have decayed to zero, each
input-free grounded frame with no obstacles strictly shrinks a nonzero
speed — but only toward zero: the new speed is still strictly positive, so
the speed decreases monotonically without ever reaching exactly zero (see
the counterexample for the failure of the exact-zero part of the claim). -/
theorem C3_amended_zero_input_decay (spawn : SpawnConfigurationState)
    (raycast : Vec3 → Vec3 → Option (ℝ × Vec3 × Vec3)) (s : KartState)
    (dt r1 r2 r3 : ℝ)
    (hthr : s.throttleInput = 0) (hsteer : s.steeringInput = 0)
    (hv : s.velocity ≠ Vec3.zero)
    (hdt0 : 0 < dt) (hdt1 : dt ≤ 1 / 4)
    (hnocol : ∀ p yw, performCollisionChecks raycast p yw = [])
    (hground : ∀ q : Vec3, ∃ hit, raycast q ⟨0, -1, 0⟩ = some hit)
    (hin : ¬ outsideRespawnBounds spawn.respawnTrigger
      (preRespawn kartConfig raycast s none dt).position) :
    0 < (update kartConfig spawn raycast s none dt r1 r2 r3).velocity.length ∧
    (update kartConfig spawn raycast s none dt r1 r2 r3).velocity.length <
      s.velocity.length := by
  have hL : 0 < s.velocity.length := Vec3.length_pos_of_ne hv
  have hupd : update kartConfig spawn raycast s none dt r1 r2 r3 =
      preRespawn kartConfig raycast s none dt := by
    rw [update, checkRespawnBounds, if_neg hin]
  rw [hupd]
  simp only [preRespawn, updateKartPhysics, inputPhase]
  set s1 := applyInputDecay s dt with hs1
  obtain ⟨h1t, h1s⟩ := applyInputDecay_zero s dt hthr hsteer
  rw [← hs1] at h1t h1s
  have h1v : s1.velocity = s.velocity := rfl
  have h1d : s1.isDrifting = False := rfl
  set s2 := updateLinearVelocity kartConfig s1 dt with hs2
  have h2v : s2.velocity = s.velocity := by
    rw [hs2, updateLinearVelocity_velocity_small kartConfig s1 dt (by rw [h1t]; norm_num),
      h1v]
  have h2t : s2.throttleInput = 0 := by rw [hs2, updateLinearVelocity_throttleInput, h1t]
  have h2d : s2.isDrifting = False := by rw [hs2, updateLinearVelocity_isDrifting, h1d]
  set s3 := updateAngularVelocity kartConfig s2 dt with hs3
  have h3v : s3.velocity = s.velocity := h2v
  have h3t : s3.throttleInput = 0 := h2t
  have h3d : s3.isDrifting = False := h2d
  set s4 := applyResistance kartConfig s3 dt with hs4
  have hk1 : (0 : ℝ) < 1 - 0.008 * dt := by nlinarith
  have hk2 : 1 - 0.008 * dt < 1 := by nlinarith
  have h3vz : s3.velocity ≠ Vec3.zero := by rw [h3v]; exact hv
  have h4len : ∃ k : ℝ, 0 < k ∧ k < 1 ∧ s4.velocity.length = k * s.velocity.length := by
    rw [hs4, applyResistance_coast s3 dt h3t h3vz]
    by_cases hg : s3.isGrounded
    · refine ⟨0.995 * (1 - 0.008 * dt), by nlinarith, by nlinarith, ?_⟩
      rw [if_pos hg, Vec3.length_smul, Vec3.length_smul, h3v,
        abs_of_nonneg (by norm_num : (0 : ℝ) ≤ 0.995), abs_of_nonneg (le_of_lt hk1)]
      ring
    · refine ⟨1 - 0.008 * dt, hk1, hk2, ?_⟩
      rw [if_neg hg, Vec3.length_smul, h3v, abs_of_nonneg (le_of_lt hk1)]
  obtain ⟨k, hk0, hklt, h4len⟩ := h4len
  have h4d : s4.isDrifting = False := h3d
  have h4t : s4.throttleInput = 0 := h3t
  obtain ⟨h5lo, h5hi⟩ := processDrift_length_bounds s4 dt
    (by rw [h4d]; exact not_false) (by rw [h4t]; norm_num) (le_of_lt hdt0) hdt1
  set s5 := processDrift s4 dt with hs5
  set s6 := updateCharacterTransform kartConfig raycast s5 dt with hs6
  have h6v : s6.velocity = s5.velocity := by
    rw [hs6]
    exact updateCharacterTransform_velocity_nocol kartConfig raycast s5 dt (hnocol _ _)
  set s7 := updateSkiddingState s6 with hs7
  have h7v : s7.velocity = s6.velocity := by rw [hs7]; exact updateSkiddingState_velocity s6
  obtain ⟨⟨d, n, p⟩, hhit⟩ := hground s7.position
  have h8v : (maintainGroundContact raycast s7 dt).velocity = s7.velocity :=
    maintainGroundContact_velocity_hit raycast s7 dt d n p hhit
  rw [h8v, h7v, h6v]
  constructor
  · have h34 : (0 : ℝ) < 1 - 3 * dt := by nlinarith
    have h4pos : 0 < s4.velocity.length := by rw [h4len]; exact mul_pos hk0 hL
    have := mul_pos h34 h4pos
    linarith
  · have hlt : s4.velocity.length < s.velocity.length := by
      rw [h4len]
      nlinarith
    linarith

/-- Witness for the amended C3 theorem: one coasting frame over flat
ground at sixty frames per second. -/
theorem C3_amended_zero_input_decay_witness :
    0 < (update kartConfig wideSpawn planeRaycast (coastState 0 1) none
      (1 / 60) (1 / 2) (1 / 2) (1 / 2)).velocity.length ∧
    (update kartConfig wideSpawn planeRaycast (coastState 0 1) none
      (1 / 60) (1 / 2) (1 / 2) (1 / 2)).velocity.length <
      (coastState 0 1).velocity.length :=
  C3_amended_zero_input_decay wideSpawn planeRaycast (coastState 0 1)
    (1 / 60) (1 / 2) (1 / 2) (1 / 2) rfl rfl
    (by simp [coastState, Vec3.zero, Vec3.mk.injEq])
    (by norm_num) (by norm_num)
    (fun p yw => performCollisionChecks_plane p yw)
    (fun q => ⟨(q.y, ⟨0, 1, 0⟩, ⟨q.x, 0, q.z⟩), by norm_num [planeRaycast]⟩)
    (by
      rw [coastPre_eval 0 1 (by norm_num) (le_refl 1)]
      simp only [outsideRespawnBounds, wideSpawn, coastState]
      push_neg
      norm_num [coastDecayFactor])

end
